import Mathlib

/-!
Verification development for the MIPS pipeline viewer core
(`src/app/src/context/SimulationContext.tsx`).

The development is a shallow embedding of the simulation core:
`parseInstruction`, `detectHazards`, `calculatePrecedingStalls`,
`executeMIPSInstruction`, `calculateNextState` and the pure part of
`startSimulation` are translated definition-by-definition from the
TypeScript source.  JavaScript records with numeric keys are embedded as
association lists (key order and key survival across updates match the
source); JavaScript numbers are embedded as `Int` with 32-bit conversions
(`ToInt32` / `ToUint32`) made explicit at the bitwise operators; fallible
parsing (`parseInt`, the `offset(base)` regular expression) returns
`Option`.  The hex-to-assembly decoder lives in `Converter.tsx`, which is
not part of the analyzed sources; instructions are therefore modelled as a
raw 32-bit word paired with the mnemonic text produced by that external
decoder (see `Instr`).
-/

namespace MipsSim

/-- The five pipeline stage names, `STAGE_NAMES` in the source. -/
inductive StageName
  | IF
  | ID
  | EX
  | MEM
  | WB
deriving DecidableEq, Repr

/-- Instruction format classes, `InstructionType` in the source. -/
inductive InstructionType
  | R
  | I
  | J
deriving DecidableEq, Repr

/-- Hazard classification, `HazardType` in the source. -/
inductive HazardType
  | RAW
  | WAW
  | NONE
deriving DecidableEq, Repr

/-- Decoded register fields of one instruction, `RegisterUsage` in the source. -/
structure RegisterUsage where
  rs : Nat
  rt : Nat
  rd : Nat
  opcode : Nat
  funct : Nat
  type : InstructionType
  isLoad : Bool
  isStore : Bool
deriving DecidableEq, Repr

/-- Per-instruction hazard record, `HazardInfo` in the source. -/
structure HazardInfo where
  type : HazardType
  description : String
  canForward : Bool
  stallCycles : Nat
deriving DecidableEq, Repr

/-- One forwarding edge, `ForwardingInfo` in the source.  The source
fields `from` and `to` are Lean keywords and are embedded as `fromIdx`
and `toIdx`. -/
structure ForwardingInfo where
  fromIdx : Nat
  toIdx : Nat
  fromStage : StageName
  toStage : StageName
  register : String
deriving DecidableEq, Repr

/-- Modelled from the spec: one instruction of the submitted program.
`word` is the raw 32-bit encoding that the source keeps as a hex string;
`op` and `operands` are the mnemonic and comma-stripped operand texts
that `translateInstructionToMIPS` (in the external `Converter.tsx`, not
part of the analyzed sources) produces for that word and that
`executeMIPSInstruction` destructures after
`mipsInstruction.replace(/,/g, "").split(" ")`. -/
structure Instr where
  word : Nat
  op : String
  operands : List String
deriving DecidableEq, Repr

/-- The register-number-to-name table `regMap` from the source, keyed by
the numeric register index.  `none` models a missing key (JavaScript
`undefined`). -/
def regMapN : Nat → Option String
  | 0 => some "zero"
  | 1 => some "at"
  | 2 => some "v0"
  | 3 => some "v1"
  | 4 => some "a0"
  | 5 => some "a1"
  | 6 => some "a2"
  | 7 => some "a3"
  | 8 => some "t0"
  | 9 => some "t1"
  | 10 => some "t2"
  | 11 => some "t3"
  | 12 => some "t4"
  | 13 => some "t5"
  | 14 => some "t6"
  | 15 => some "t7"
  | 16 => some "s0"
  | 17 => some "s1"
  | 18 => some "s2"
  | 19 => some "s3"
  | 20 => some "s4"
  | 21 => some "s5"
  | 22 => some "s6"
  | 23 => some "s7"
  | 24 => some "t8"
  | 25 => some "t9"
  | 26 => some "k0"
  | 27 => some "k1"
  | 28 => some "gp"
  | 29 => some "sp"
  | 30 => some "fp"
  | 31 => some "ra"
  | _ => none

/-- Interpolating a missing `regMap` entry into a template string yields
the text `undefined` in JavaScript; this helper reproduces that. -/
def regNameStr (n : Nat) : String :=
  match regMapN n with
  | some s => s
  | none => "undefined"

/-- Field extraction of `parseInstruction`: the binary string slices of
the source are bit-field selections on the 32-bit word. -/
def parseInstruction (word : Nat) : RegisterUsage :=
  let opcode := word / 2 ^ 26 % 2 ^ 6
  let rs := word / 2 ^ 21 % 2 ^ 5
  let rt := word / 2 ^ 16 % 2 ^ 5
  if opcode = 0 then
    { rs := rs, rt := rt, rd := word / 2 ^ 11 % 2 ^ 5, opcode := opcode,
      funct := word % 2 ^ 6, type := .R, isLoad := false, isStore := false }
  else if opcode = 2 ∨ opcode = 3 then
    { rs := rs, rt := rt, rd := if opcode = 3 then 31 else 0, opcode := opcode,
      funct := 0, type := .J, isLoad := false, isStore := false }
  else if opcode = 32 ∨ opcode = 33 ∨ opcode = 35 ∨ opcode = 36 ∨ opcode = 37 ∨ opcode = 48 then
    { rs := rs, rt := rt, rd := rt, opcode := opcode,
      funct := 0, type := .I, isLoad := true, isStore := false }
  else if opcode = 40 ∨ opcode = 41 ∨ opcode = 43 ∨ opcode = 56 then
    { rs := rs, rt := rt, rd := 0, opcode := opcode,
      funct := 0, type := .I, isLoad := false, isStore := true }
  else if opcode = 8 ∨ opcode = 9 ∨ opcode = 12 ∨ opcode = 13 ∨ opcode = 14 ∨ opcode = 15 then
    { rs := rs, rt := rt, rd := rt, opcode := opcode,
      funct := 0, type := .I, isLoad := false, isStore := false }
  else
    { rs := rs, rt := rt, rd := 0, opcode := opcode,
      funct := 0, type := .I, isLoad := false, isStore := false }

/-! JavaScript number conversions.  Register and memory values are exact
integers throughout the simulator (JavaScript doubles are exact on this
range), so they are embedded as `Int`; the bitwise operators and `>>> 0`
apply the ECMAScript `ToInt32` / `ToUint32` conversions first, embedded
explicitly below. -/

/-- ECMAScript `ToUint32` of an integral number, as a natural number
below `2 ^ 32`. -/
def toUint32n (x : Int) : Nat := (x.emod (2 ^ 32)).toNat

/-- ECMAScript `ToUint32` of an integral number, as an `Int` in
`[0, 2 ^ 32)`; this is the `>>> 0` idiom of the source. -/
def toUint32 (x : Int) : Int := x.emod (2 ^ 32)

/-- Reinterpret an unsigned 32-bit value as a signed one (two's
complement), the way JavaScript bitwise operators return their result. -/
def fromUint32 (n : Nat) : Int :=
  if n < 2 ^ 31 then (n : Int) else (n : Int) - 2 ^ 32

/-- ECMAScript `ToInt32` of an integral number. -/
def toInt32 (x : Int) : Int := fromUint32 (toUint32n x)

/-- JavaScript `x & y` on integral numbers. -/
def jsAnd (x y : Int) : Int := fromUint32 (Nat.land (toUint32n x) (toUint32n y))

/-- JavaScript `x | y` on integral numbers. -/
def jsOr (x y : Int) : Int := fromUint32 (Nat.lor (toUint32n x) (toUint32n y))

/-- JavaScript `~(x | y)` on integral numbers (the `nor` body). -/
def jsNorOp (x y : Int) : Int :=
  fromUint32 (2 ^ 32 - 1 - Nat.lor (toUint32n x) (toUint32n y))

/-- JavaScript `x << k` for a shift count already reduced mod 32. -/
def jsShl (x : Int) (k : Nat) : Int := fromUint32 (toUint32n x * 2 ^ k % 2 ^ 32)

/-- JavaScript `x >>> k` (unsigned right shift) for a reduced count. -/
def jsShrU (x : Int) (k : Nat) : Int := Int.ofNat (toUint32n x / 2 ^ k)

/-- JavaScript `x >> k` (arithmetic right shift): floor division of the
`ToInt32` value by `2 ^ k`. -/
def jsShr (x : Int) (k : Nat) : Int := Int.fdiv (toInt32 x) (2 ^ k)

/-- Shift counts are themselves converted with `ToUint32` and masked to
five bits by the ECMAScript shift operators; `parseInt` failures (NaN)
convert to zero. -/
def shiftCount (v : Option Int) : Nat := toUint32n (v.getD 0) % 32

/-! String helpers.  These embed the exact JavaScript string operations
the source uses on operand text; all operand text is ASCII. -/

/-- ASCII lower-casing of one character (`String.prototype.toLowerCase`
restricted to the ASCII operand alphabet of the decoder). -/
def lcChar (c : Char) : Char :=
  if 'A' ≤ c ∧ c ≤ 'Z' then Char.ofNat (c.toNat + 32) else c

/-- Whitespace test used by `trim` and by `parseInt` prefix skipping. -/
def isWS (c : Char) : Bool := c = ' ' ∨ c = '\t' ∨ c = '\n' ∨ c = '\r'

/-- JavaScript `String.prototype.trim` on a character list. -/
def jsTrimL (cs : List Char) : List Char :=
  ((cs.dropWhile isWS).reverse.dropWhile isWS).reverse

/-- Remove the first occurrence of a character; this is JavaScript
`s.replace(c, "")` with a single-character pattern, which replaces only
the first match. -/
def removeFirst (c : Char) : List Char → List Char
  | [] => []
  | x :: xs => if x = c then xs else x :: removeFirst c xs

/-- The pervasive `r.replace(dollar, "")` idiom of the source. -/
def stripD (s : String) : String := String.mk (removeFirst '$' s.data)

/-- The source helper `normalizeRegister`: lower-case, trim, and ensure a
leading dollar sign. -/
def normalizeRegister (reg : String) : String :=
  let r := String.mk (jsTrimL (reg.data.map lcChar))
  if r.data.head? = some '$' then r else "$" ++ r

/-- Decimal digit value. -/
def decDigit (c : Char) : Option Nat :=
  if '0' ≤ c ∧ c ≤ '9' then some (c.toNat - 48) else none

/-- Hexadecimal digit value. -/
def hexDigit (c : Char) : Option Nat :=
  if '0' ≤ c ∧ c ≤ '9' then some (c.toNat - 48)
  else if 'a' ≤ c ∧ c ≤ 'f' then some (c.toNat - 87)
  else if 'A' ≤ c ∧ c ≤ 'F' then some (c.toNat - 55)
  else none

/-- Accumulate the longest leading digit run; `none` when it is empty,
matching `parseInt` returning NaN. -/
def takeDigitRun (digit : Char → Option Nat) (base : Nat) : List Char → Option Nat → Option Nat
  | [], acc => acc
  | c :: cs, acc =>
    match digit c with
    | some d => takeDigitRun digit base cs (some ((acc.getD 0) * base + d))
    | none => acc

/-- Sign prefix handling shared by the `parseInt` embeddings. -/
def splitSign : List Char → Int × List Char
  | '-' :: cs => (-1, cs)
  | '+' :: cs => (1, cs)
  | cs => (1, cs)

/-- JavaScript `parseInt(s)` (radix unspecified): skip whitespace, read an
optional sign, honor a `0x` prefix, then read the longest digit run;
`none` models NaN. -/
def jsParseInt (s : String) : Option Int :=
  let (sign, cs) := splitSign (s.data.dropWhile isWS)
  match cs with
  | '0' :: 'x' :: rest => (takeDigitRun hexDigit 16 rest none).map (fun n => sign * n)
  | '0' :: 'X' :: rest => (takeDigitRun hexDigit 16 rest none).map (fun n => sign * n)
  | _ => (takeDigitRun decDigit 10 cs none).map (fun n => sign * n)

/-- JavaScript `parseInt(s, 16)`: as above but always hexadecimal, with an
optional `0x` prefix. -/
def jsParseIntHex (s : String) : Option Int :=
  let (sign, cs) := splitSign (s.data.dropWhile isWS)
  match cs with
  | '0' :: 'x' :: rest => (takeDigitRun hexDigit 16 rest none).map (fun n => sign * n)
  | '0' :: 'X' :: rest => (takeDigitRun hexDigit 16 rest none).map (fun n => sign * n)
  | _ => (takeDigitRun hexDigit 16 cs none).map (fun n => sign * n)

/-- Word-character test of the regular expression class `\w`. -/
def isWordChar (c : Char) : Bool :=
  ('a' ≤ c ∧ c ≤ 'z') ∨ ('A' ≤ c ∧ c ≤ 'Z') ∨ ('0' ≤ c ∧ c ≤ '9') ∨ c = '_'

/-- The memory-operand regular expression of the source,
`^(-?\d+)\(\$(\w+)\)$`: an optionally negated digit run, a parenthesized
dollar-prefixed word, and nothing else.  Returns the numeric offset and
the base register text (without the dollar sign). -/
def parseOffsetBase (s : String) : Option (Int × String) :=
  let (sign, cs) := match s.data with
    | '-' :: rest => ((-1 : Int), rest)
    | rest => (1, rest)
  let digits := cs.takeWhile (fun c => (decDigit c).isSome)
  let rest := cs.dropWhile (fun c => (decDigit c).isSome)
  if digits.isEmpty then none
  else
    match rest with
    | '(' :: '$' :: rest2 =>
      let word := rest2.takeWhile isWordChar
      let rest3 := rest2.dropWhile isWordChar
      if word.isEmpty then none
      else match rest3 with
        | [')'] => (takeDigitRun decDigit 10 digits none).map
            (fun n => (sign * n, String.mk word))
        | _ => none
    | _ => none

/-! Association-list records.  JavaScript objects with numeric keys are
embedded as association lists: an update to an existing key rewrites it
in place, an update to a fresh key appends it, and `Object.values`
enumerates integer-like keys in ascending insertion order, which the
construction below preserves. -/

/-- Lookup in a record; `none` models a missing key. -/
def recLookup {α : Type} : List (Nat × α) → Nat → Option α
  | [], _ => none
  | (k, v) :: rest, key => if k = key then some v else recLookup rest key

/-- Assignment `record[key] = value`. -/
def recSet {α : Type} : List (Nat × α) → Nat → α → List (Nat × α)
  | [], key, value => [(key, value)]
  | (k, v) :: rest, key, value =>
    if k = key then (k, value) :: rest else (k, v) :: recSet rest key value

/-- Lookup for records with (possibly negative) numeric keys, used for
`instructionStages` whose keys are `index + newPC`. -/
def recLookupI {α : Type} : List (Int × α) → Int → Option α
  | [], _ => none
  | (k, v) :: rest, key => if k = key then some v else recLookupI rest key

/-- Assignment for records with numeric keys. -/
def recSetI {α : Type} : List (Int × α) → Int → α → List (Int × α)
  | [], key, value => [(key, value)]
  | (k, v) :: rest, key, value =>
    if k = key then (k, value) :: rest else (k, v) :: recSetI rest key value

/-- Point update of a total map, modelling `registers[name] = value` on
the register-file object. -/
def upd {α : Type} (f : String → α) (key : String) (value : α) : String → α :=
  fun x => if x = key then value else f x

/-- Point update of the memory object, `memory[address] = value`. -/
def updMem (f : Nat → Int) (key : Nat) (value : Int) : Nat → Int :=
  fun x => if x = key then value else f x

/-! The hazard analyzer, `detectHazards` in the source. -/

/-- The three result records of `detectHazards`, returned as a tuple in
the source. -/
structure HazardTables where
  hazards : List (Nat × HazardInfo)
  forwardings : List (Nat × List ForwardingInfo)
  stalls : List (Nat × Nat)
deriving DecidableEq, Repr

/-- The initialization record `type: NONE` given to every instruction. -/
def noHazard : HazardInfo :=
  { type := .NONE, description := "No hazard", canForward := false, stallCycles := 0 }

/-- Initial tables: every instruction index gets a `NONE` hazard, an empty
forwarding list and zero stalls. -/
def initTables (n : Nat) : HazardTables :=
  { hazards := (List.range n).map (fun k => (k, noHazard)),
    forwardings := (List.range n).map (fun k => (k, ([] : List ForwardingInfo))),
    stalls := (List.range n).map (fun k => (k, 0)) }

/-- The first RAW trigger of the scan: `rs(i)` is nonzero and equals the
producer destination. -/
def rsRawMatch (usage : Nat → RegisterUsage) (i j : Nat) : Bool :=
  (usage i).rs != 0 && (usage i).rs == (usage j).rd

/-- The second RAW trigger (only examined when the first fails): `rt(i)`
is nonzero, equals the producer destination, and instruction `i` is a
store or a non-load instruction that is not of immediate type. -/
def rtRawMatch (usage : Nat → RegisterUsage) (i j : Nat) : Bool :=
  !rsRawMatch usage i j &&
  ((usage i).rt != 0 && (usage i).rt == (usage j).rd &&
    ((usage i).isStore || (!(usage i).isLoad && !((usage i).type == .I))))

/-- `hasRawHazard` of the source for the pair `(i, j)`. -/
def pairRawMatch (usage : Nat → RegisterUsage) (i j : Nat) : Bool :=
  rsRawMatch usage i j || rtRawMatch usage i j

/-- The `hazardRegister` description fragment of the source. -/
def hazardRegisterStr (usage : Nat → RegisterUsage) (i j : Nat) : String :=
  if rsRawMatch usage i j then "rs($" ++ regNameStr (usage i).rs ++ ")"
  else "rt($" ++ regNameStr (usage i).rt ++ ")"

/-- Description of a load-use hazard record. -/
def loadUseDesc (usage : Nat → RegisterUsage) (i j : Nat) : String :=
  "Load-use hazard: " ++ hazardRegisterStr usage i j ++
    " depends on lw in instruction " ++ toString j

/-- Description of a forwarded general RAW hazard record. -/
def rawFwdDesc (usage : Nat → RegisterUsage) (i j : Nat) : String :=
  "RAW hazard: " ++ hazardRegisterStr usage i j ++
    " depends on instruction " ++ toString j ++ " (forwarded)"

/-- Description of a general RAW hazard record without forwarding. -/
def rawNoFwdDesc (usage : Nat → RegisterUsage) (i j : Nat) : String :=
  "RAW hazard: " ++ hazardRegisterStr usage i j ++
    " depends on instruction " ++ toString j ++ " (no forwarding)"

/-- Description of a WAW hazard record. -/
def wawDesc (usage : Nat → RegisterUsage) (i : Nat) : String :=
  "WAW hazard: Both instructions write to $" ++ regNameStr (usage i).rd

/-- The body of the inner producer loop of `detectHazards` for one pair
`(i, j)`: the `continue` guard for producers without a destination, the
RAW classification with its load-use / general split and forwarding
toggle, and the trailing WAW check. -/
def processPair (usage : Nat → RegisterUsage) (forwardingEnabled : Bool) (i : Nat)
    (tables : HazardTables) (j : Nat) : HazardTables :=
  let currentInst := usage i
  let prevInst := usage j
  if prevInst.rd = 0 ∧ prevInst.isLoad = false then tables
  else
    let hasRaw := pairRawMatch usage i j
    let distance := i - j
    let afterRaw :=
      if hasRaw then
        if prevInst.isLoad then
          if distance = 1 then
            let stallN := if forwardingEnabled then 0 else 1
            let t1 : HazardTables :=
              { tables with
                hazards := recSet tables.hazards i
                  { type := .RAW, description := loadUseDesc usage i j,
                    canForward := forwardingEnabled, stallCycles := stallN },
                stalls := recSet tables.stalls i stallN }
            if forwardingEnabled then
              { t1 with
                forwardings := recSet t1.forwardings i
                  ((recLookup tables.forwardings i).getD [] ++
                    [{ fromIdx := j, toIdx := i, fromStage := .MEM, toStage := .EX,
                       register := "$" ++ regNameStr prevInst.rd }]) }
            else t1
          else tables
        else
          if forwardingEnabled then
            { tables with
              hazards := recSet tables.hazards i
                { type := .RAW, description := rawFwdDesc usage i j,
                  canForward := true, stallCycles := 0 },
              forwardings := recSet tables.forwardings i
                ((recLookup tables.forwardings i).getD [] ++
                  [{ fromIdx := j, toIdx := i,
                     fromStage := if distance = 1 then .EX else .MEM, toStage := .EX,
                     register := "$" ++ regNameStr prevInst.rd }]) }
          else
            { tables with
              hazards := recSet tables.hazards i
                { type := .RAW, description := rawNoFwdDesc usage i j,
                  canForward := false,
                  stallCycles := if distance = 1 then 2 else 1 },
              stalls := recSet tables.stalls i (if distance = 1 then 2 else 1) }
      else tables
    if currentInst.rd ≠ 0 ∧ currentInst.rd = prevInst.rd ∧ hasRaw = false then
      { afterRaw with
        hazards := recSet afterRaw.hazards i
          { type := .WAW, description := wawDesc usage i,
            canForward := true, stallCycles := 0 } }
    else afterRaw

/-- The producer candidates `j = i-1, i-2, i-3` (stopping at zero) that
the inner loop visits, in visit order. -/
def jCandidates (i : Nat) : List Nat := (List.range i).reverse.take 3

/-- One iteration of the outer loop of `detectHazards`: jump-type
instructions are skipped, otherwise all producer candidates are processed
nearest first. -/
def processInstruction (usage : Nat → RegisterUsage) (forwardingEnabled : Bool)
    (tables : HazardTables) (i : Nat) : HazardTables :=
  if (usage i).type = .J then tables
  else (jCandidates i).foldl (processPair usage forwardingEnabled i) tables

/-- `detectHazards` of the source.  The instruction list is used only for
its indices; register usage is the decoded-field record.  When stalls are
disabled the initial tables are returned immediately. -/
def detectHazards (instructions : List Instr) (usage : Nat → RegisterUsage)
    (forwardingEnabled stallsEnabled : Bool) : HazardTables :=
  let init := initTables instructions.length
  if stallsEnabled = false then init
  else (List.range' 1 (instructions.length - 1)).foldl
    (processInstruction usage forwardingEnabled) init

/-! The execution unit, `executeMIPSInstruction` in the source. -/

/-- Result of one execution call: the (possibly) mutated register file
and memory and the optionally redirected program counter. -/
structure ExecResult where
  registers : String → Int
  memory : Nat → Int
  newPC : Option Int

/-- The `getRegName` helper: number-to-name via `regMap`, falling back to
the template `r` followed by the stringified number; a NaN register
number (a failed `parseInt`) stringifies to `rNaN`. -/
def getRegName (v : Option Int) : String :=
  match v with
  | none => "$rNaN"
  | some k =>
    match (if 0 ≤ k ∧ k ≤ 31 then regMapN k.toNat else none) with
    | some s => "$" ++ s
    | none => "$r" ++ toString k

/-- The `getForwardedValue` closure: when some forwarding edge matches the
computed register name and the current stage, the value is re-read from
the (already committed) register file, otherwise the supplied default is
used. -/
def getForwardedValue (forwardings : List ForwardingInfo) (stage : StageName)
    (registers : String → Int) (regNum : Option Int) (defaultValue : Int) : Int :=
  let regName := getRegName regNum
  match forwardings.find? (fun f => f.register == regName && f.toStage == stage) with
  | some _ => registers regName
  | none => defaultValue

/-- Operand destructuring `const [a, b, c] = operands`.  A missing element
is JavaScript `undefined`; it is embedded as the empty string (the
only places where the two differ are operand shapes the external decoder
never produces). -/
def operandAt (operands : List String) (k : Nat) : String := operands.getD k ""

/-- The `operands.map(r => normalizeRegister(r.replace(dollar, "")))`
idiom of the three-register arithmetic cases. -/
def mapRegs (operands : List String) : List String :=
  operands.map (fun r => normalizeRegister (stripD r))

/-- A `parseInt` result used in a plain arithmetic context.  A NaN there
would propagate NaN into the register file; the decoder always emits
numeric immediates, and the embedding collapses that unreachable NaN to
zero. -/
def immOr0 (v : Option Int) : Int := v.getD 0

/-- The `EX` arm of the stage switch.  Each case is transcribed from the
source; operand fetches go through `getForwardedValue` exactly where the
source calls it, with the same (name-derived, hence usually NaN) register
number. -/
def execEX (op : String) (operands : List String) (registers : String → Int)
    (memory : Nat → Int) (PC : Int) (forwardings : List ForwardingInfo) : ExecResult :=
  let gfv := getForwardedValue forwardings .EX registers
  if op = "add" ∨ op = "addu" then
    let m := mapRegs operands
    let rd := operandAt m 0
    let rs := operandAt m 1
    let rt := operandAt m 2
    let rsValue := gfv (jsParseInt (stripD rs)) (registers rs)
    let rtValue := gfv (jsParseInt (stripD rt)) (registers rt)
    { registers := upd registers rd (rsValue + rtValue), memory := memory, newPC := none }
  else if op = "addi" ∨ op = "addiu" then
    let rt := operandAt operands 0
    let rs := operandAt operands 1
    let immediate := operandAt operands 2
    let rtNorm := normalizeRegister (stripD rt)
    let rsNorm := normalizeRegister (stripD rs)
    let immValue := jsParseInt immediate
    let rsValue := gfv (jsParseInt (stripD rs)) (registers rsNorm)
    { registers := upd registers rtNorm (rsValue + immOr0 immValue),
      memory := memory, newPC := none }
  else if op = "and" then
    let m := mapRegs operands
    let rd := operandAt m 0
    let rs := operandAt m 1
    let rt := operandAt m 2
    let rsValue := gfv (jsParseInt (stripD rs)) (registers rs)
    let rtValue := gfv (jsParseInt (stripD rt)) (registers rt)
    { registers := upd registers rd (jsAnd rsValue rtValue), memory := memory, newPC := none }
  else if op = "andi" then
    let rt := operandAt operands 0
    let rs := operandAt operands 1
    let immediate := operandAt operands 2
    let rtNorm := normalizeRegister (stripD rt)
    let rsNorm := normalizeRegister (stripD rs)
    let rsValue := gfv (jsParseInt (stripD rs)) (registers rsNorm)
    { registers := upd registers rtNorm (jsAnd rsValue (immOr0 (jsParseInt immediate))),
      memory := memory, newPC := none }
  else if op = "or" then
    let m := mapRegs operands
    let rd := operandAt m 0
    let rs := operandAt m 1
    let rt := operandAt m 2
    let rsValue := gfv (jsParseInt (stripD rs)) (registers rs)
    let rtValue := gfv (jsParseInt (stripD rt)) (registers rt)
    { registers := upd registers rd (jsOr rsValue rtValue), memory := memory, newPC := none }
  else if op = "ori" then
    let rt := operandAt operands 0
    let rs := operandAt operands 1
    let immediate := operandAt operands 2
    let rtNorm := normalizeRegister (stripD rt)
    let rsNorm := normalizeRegister (stripD rs)
    let rsValue := gfv (jsParseInt (stripD rs)) (registers rsNorm)
    { registers := upd registers rtNorm (jsOr rsValue (immOr0 (jsParseInt immediate))),
      memory := memory, newPC := none }
  else if op = "slt" then
    let m := mapRegs operands
    let rd := operandAt m 0
    let rs := operandAt m 1
    let rt := operandAt m 2
    let rsValue := gfv (jsParseInt (stripD rs)) (registers rs)
    let rtValue := gfv (jsParseInt (stripD rt)) (registers rt)
    { registers := upd registers rd (if rsValue < rtValue then 1 else 0),
      memory := memory, newPC := none }
  else if op = "slti" then
    let rt := operandAt operands 0
    let rs := operandAt operands 1
    let immediate := operandAt operands 2
    let rtNorm := normalizeRegister (stripD rt)
    let rsNorm := normalizeRegister (stripD rs)
    let rsValue := gfv (jsParseInt (stripD rs)) (registers rsNorm)
    let cmp : Int := match jsParseInt immediate with
      | some v => if rsValue < v then 1 else 0
      | none => 0
    { registers := upd registers rtNorm cmp, memory := memory, newPC := none }
  else if op = "sltiu" then
    let rt := operandAt operands 0
    let rs := operandAt operands 1
    let immediate := operandAt operands 2
    let rtNorm := normalizeRegister (stripD rt)
    let rsNorm := normalizeRegister (stripD rs)
    let rsValue := gfv (jsParseInt (stripD rs)) (registers rsNorm)
    let immU : Int := match jsParseInt immediate with
      | some v => toUint32 v
      | none => 0
    { registers := upd registers rtNorm (if toUint32 rsValue < immU then 1 else 0),
      memory := memory, newPC := none }
  else if op = "sltu" then
    let m := mapRegs operands
    let rd := operandAt m 0
    let rs := operandAt m 1
    let rt := operandAt m 2
    let rsValue := gfv (jsParseInt (stripD rs)) (registers rs)
    let rtValue := gfv (jsParseInt (stripD rt)) (registers rt)
    { registers := upd registers rd (if toUint32 rsValue < toUint32 rtValue then 1 else 0),
      memory := memory, newPC := none }
  else if op = "sll" then
    let rd := operandAt operands 0
    let rt := operandAt operands 1
    let shamt := operandAt operands 2
    let rtNorm := normalizeRegister (stripD rt)
    let rdNorm := normalizeRegister (stripD rd)
    let rtValue := gfv (jsParseInt (stripD rt)) (registers rtNorm)
    { registers := upd registers rdNorm (jsShl rtValue (shiftCount (jsParseInt shamt))),
      memory := memory, newPC := none }
  else if op = "srl" then
    let rd := operandAt operands 0
    let rt := operandAt operands 1
    let shamt := operandAt operands 2
    let rtNorm := normalizeRegister (stripD rt)
    let rdNorm := normalizeRegister (stripD rd)
    let rtValue := gfv (jsParseInt (stripD rt)) (registers rtNorm)
    { registers := upd registers rdNorm (jsShrU rtValue (shiftCount (jsParseInt shamt))),
      memory := memory, newPC := none }
  else if op = "sub" ∨ op = "subu" then
    let m := mapRegs operands
    let rd := operandAt m 0
    let rs := operandAt m 1
    let rt := operandAt m 2
    let rsValue := gfv (jsParseInt (stripD rs)) (registers rs)
    let rtValue := gfv (jsParseInt (stripD rt)) (registers rt)
    { registers := upd registers rd (rsValue - rtValue), memory := memory, newPC := none }
  else if op = "nor" then
    let m := mapRegs operands
    let rd := operandAt m 0
    let rs := operandAt m 1
    let rt := operandAt m 2
    let rsValue := gfv (jsParseInt (stripD rs)) (registers rs)
    let rtValue := gfv (jsParseInt (stripD rt)) (registers rt)
    { registers := upd registers rd (jsNorOp rsValue rtValue), memory := memory, newPC := none }
  else if op = "beq" then
    let rs := operandAt operands 0
    let rt := operandAt operands 1
    let offset := operandAt operands 2
    let rsNorm := normalizeRegister (stripD rs)
    let rtNorm := normalizeRegister (stripD rt)
    let rsValue := gfv (jsParseInt (stripD rs)) (registers rsNorm)
    let rtValue := gfv (jsParseInt (stripD rt)) (registers rtNorm)
    { registers := registers, memory := memory,
      newPC := if rsValue = rtValue then some (PC + 1 + immOr0 (jsParseInt offset)) else none }
  else if op = "bne" then
    let rs := operandAt operands 0
    let rt := operandAt operands 1
    let offset := operandAt operands 2
    let rsNorm := normalizeRegister (stripD rs)
    let rtNorm := normalizeRegister (stripD rt)
    let rsValue := gfv (jsParseInt (stripD rs)) (registers rsNorm)
    let rtValue := gfv (jsParseInt (stripD rt)) (registers rtNorm)
    { registers := registers, memory := memory,
      newPC := if rsValue ≠ rtValue then some (PC + 1 + immOr0 (jsParseInt offset)) else none }
  else if op = "j" then
    let target := operandAt operands 0
    { registers := registers, memory := memory,
      newPC := some (jsShr (immOr0 (jsParseIntHex target)) 2) }
  else if op = "jal" then
    let target := operandAt operands 0
    { registers := upd registers "$ra" (PC + 2), memory := memory,
      newPC := some (jsShr (immOr0 (jsParseIntHex target)) 2) }
  else if op = "jr" then
    let rs := operandAt operands 0
    let rsNorm := normalizeRegister (stripD rs)
    let rsValue := gfv (jsParseInt (stripD rs)) (registers rsNorm)
    { registers := registers, memory := memory, newPC := some (jsShr rsValue 2) }
  else if op = "lui" then
    let rt := operandAt operands 0
    let immediate := operandAt operands 1
    let rtNorm := normalizeRegister (stripD rt)
    { registers := upd registers rtNorm (jsShl (immOr0 (jsParseInt immediate)) 16),
      memory := memory, newPC := none }
  else { registers := registers, memory := memory, newPC := none }

/-- The `MEM` arm of the stage switch. -/
def execMEM (op : String) (operands : List String) (registers : String → Int)
    (memory : Nat → Int) (forwardings : List ForwardingInfo) : ExecResult :=
  let gfv := getForwardedValue forwardings .MEM registers
  if op = "lw" ∨ op = "sw" then
    let rt := operandAt operands 0
    let offsetAndBase := operandAt operands 1
    let rtNorm := normalizeRegister (stripD rt)
    match parseOffsetBase offsetAndBase with
    | none => { registers := registers, memory := memory, newPC := none }
    | some (offset, baseReg) =>
      let baseRegNorm := normalizeRegister baseReg
      let baseValue := gfv (jsParseInt (stripD baseReg)) (registers baseRegNorm)
      let address := toUint32 (baseValue + offset)
      if address < 0 ∨ 32 ≤ address then
        { registers := registers, memory := memory, newPC := none }
      else if op = "lw" then
        { registers := upd registers rtNorm (memory address.toNat),
          memory := memory, newPC := none }
      else
        let valueToStore := gfv (jsParseInt (stripD rt)) (registers rtNorm)
        { registers := registers, memory := updMem memory address.toNat valueToStore,
          newPC := none }
  else if op = "lbu" ∨ op = "lhu" ∨ op = "ll" ∨ op = "sb" ∨ op = "sh" ∨ op = "sc" then
    let rt := operandAt operands 0
    let offsetAndBase := operandAt operands 1
    let rtNorm := normalizeRegister (stripD rt)
    match parseOffsetBase offsetAndBase with
    | none => { registers := registers, memory := memory, newPC := none }
    | some (offset, baseReg) =>
      let baseRegNorm := normalizeRegister baseReg
      let baseValue := gfv (jsParseInt (stripD baseReg)) (registers baseRegNorm)
      let address := toUint32 (baseValue + offset)
      if address < 0 ∨ 31 < address then
        { registers := registers, memory := memory, newPC := none }
      else if op = "lbu" then
        { registers := upd registers rtNorm (jsAnd (memory address.toNat) 255),
          memory := memory, newPC := none }
      else if op = "lhu" then
        { registers := upd registers rtNorm (jsAnd (memory address.toNat) 65535),
          memory := memory, newPC := none }
      else if op = "ll" then
        { registers := upd registers rtNorm (memory address.toNat),
          memory := memory, newPC := none }
      else if op = "sb" then
        let valueToStore := gfv (jsParseInt (stripD rt)) (registers rtNorm)
        { registers := registers,
          memory := updMem memory address.toNat (jsAnd valueToStore 255), newPC := none }
      else if op = "sh" then
        let valueToStore := gfv (jsParseInt (stripD rt)) (registers rtNorm)
        { registers := registers,
          memory := updMem memory address.toNat (jsAnd valueToStore 65535), newPC := none }
      else
        let valueToStore := gfv (jsParseInt (stripD rt)) (registers rtNorm)
        { registers := upd registers rtNorm 1,
          memory := updMem memory address.toNat valueToStore, newPC := none }
  else { registers := registers, memory := memory, newPC := none }

/-- The stage switch of `executeMIPSInstruction`; `IF`, `ID` have no case
and `WB` only logs, so all three leave everything unchanged. -/
def execStage (instr : Instr) (registers : String → Int) (memory : Nat → Int)
    (PC : Int) (stage : StageName) (forwardings : List ForwardingInfo) : ExecResult :=
  match stage with
  | .EX => execEX instr.op instr.operands registers memory PC forwardings
  | .MEM => execMEM instr.op instr.operands registers memory forwardings
  | _ => { registers := registers, memory := memory, newPC := none }

/-- `executeMIPSInstruction`: run the stage switch, then force register
`zero` back to `0` unconditionally, and return the optional redirected
program counter. -/
def executeMIPSInstruction (instr : Instr) (registers : String → Int)
    (memory : Nat → Int) (PC : Int) (stage : StageName)
    (forwardings : List ForwardingInfo) : ExecResult :=
  let r := execStage instr registers memory PC stage forwardings
  { r with registers := upd r.registers "$zero" 0 }

/-- The effective address a memory-stage load or store computes for a
well-formed `offset(base)` operand: the base register fetch plus the
offset, converted with `ToUint32` (the `>>> 0` of the source).  `none`
when the operand does not match the regular expression. -/
def memAddress (operands : List String) (registers : String → Int)
    (forwardings : List ForwardingInfo) : Option Int :=
  (parseOffsetBase (operandAt operands 1)).map (fun p =>
    toUint32 (getForwardedValue forwardings .MEM registers
      (jsParseInt (stripD p.2)) (registers (normalizeRegister p.2)) + p.1))

/-! The stage scheduler: `SimulationState`, `calculatePrecedingStalls`
and the pure transition `calculateNextState`. -/

/-- `STAGE_NAMES.length` in the source. -/
def DEFAULT_STAGE_COUNT : Nat := 5

/-- The simulation snapshot, `SimulationState` in the source.  The
register file and memory objects are embedded as total maps (missing keys
never arise on the 32 named registers and 32 memory words the simulator
initializes); the numeric-keyed records are association lists. -/
structure SimulationState where
  instructions : List Instr
  currentCycle : Nat
  maxCycles : Nat
  isRunning : Bool
  stageCount : Nat
  instructionStages : List (Int × Option Int)
  isFinished : Bool
  registerUsage : Nat → RegisterUsage
  hazards : List (Nat × HazardInfo)
  forwardings : List (Nat × List ForwardingInfo)
  stalls : List (Nat × Nat)
  currentStallCycles : Nat
  forwardingEnabled : Bool
  stallsEnabled : Bool
  registers : String → Int
  memory : Nat → Int
  PC : Int

/-- `calculatePrecedingStalls`: the sum of the stall-table entries of all
instructions before `index` (missing entries count zero).  The index may
be an arbitrary number in the redirect path, where the loop simply does
not run for non-positive bounds. -/
def calculatePrecedingStalls (stalls : List (Nat × Nat)) (index : Int) : Nat :=
  (List.range index.toNat).foldl (fun a i => a + (recLookup stalls i).getD 0) 0

/-- `Object.values(currentState.stalls)` summed. -/
def totalStallCyclesOf (s : SimulationState) : Nat := (s.stalls.map Prod.snd).sum

/-- The completion cycle the transition computes:
`instructionCount + stageCount - 1 + totalStallCycles` for a nonempty
program, else `0`. -/
def completionCycleOf (s : SimulationState) : Nat :=
  if s.instructions.length > 0 then
    s.instructions.length + s.stageCount - 1 + totalStallCyclesOf s
  else 0

/-- Placeholder instruction for the (never taken) out-of-range list
accesses of the index loops. -/
def emptyInstr : Instr := { word := 0, op := "", operands := [] }

/-- Accumulator of the per-instruction loop of `calculateNextState`: the
freshly built stage record, the pending stall counter, and the scratch
register/memory/program-counter copies the loop mutates. -/
structure LoopAcc where
  stages : List (Int × Option Int)
  stallCycles : Nat
  registers : String → Int
  memory : Nat → Int
  pc : Int

/-- One iteration of the `forEach` over instructions: compute the stage
index from the cycle, the position and the preceding stalls; record it
(or `null`); inject this instruction's stall count when it sits in the
decode stage and no global stall is pending; and invoke the execution
unit in the EX/MEM/WB stages.  The `currentCycle` argument of the source
call is used only for logging and is dropped here. -/
def stepLoopBody (s : SimulationState) (nextCycle : Nat) (acc : LoopAcc)
    (index : Nat) : LoopAcc :=
  let inst := s.instructions.getD index emptyInstr
  let precedingStalls := calculatePrecedingStalls s.stalls index
  let stageIndex : Int := (nextCycle : Int) - index - 1 - precedingStalls
  if 0 ≤ stageIndex ∧ stageIndex < (s.stageCount : Int) then
    let stages := recSetI acc.stages index (some stageIndex)
    let stallC :=
      if stageIndex = 1 ∧ (recLookup s.stalls index).getD 0 > 0 ∧ acc.stallCycles = 0 then
        (recLookup s.stalls index).getD 0
      else acc.stallCycles
    if stageIndex = 2 then
      let r := executeMIPSInstruction inst acc.registers acc.memory acc.pc .EX
        ((recLookup s.forwardings index).getD [])
      { stages := stages, stallCycles := stallC, registers := r.registers,
        memory := r.memory, pc := (r.newPC).getD acc.pc }
    else if stageIndex = 3 then
      let r := executeMIPSInstruction inst acc.registers acc.memory acc.pc .MEM
        ((recLookup s.forwardings index).getD [])
      { stages := stages, stallCycles := stallC, registers := r.registers,
        memory := r.memory, pc := acc.pc }
    else if stageIndex = 4 then
      let r := executeMIPSInstruction inst acc.registers acc.memory acc.pc .WB
        ((recLookup s.forwardings index).getD [])
      { stages := stages, stallCycles := stallC, registers := r.registers,
        memory := r.memory, pc := acc.pc }
    else
      { stages := stages, stallCycles := stallC, registers := acc.registers,
        memory := acc.memory, pc := acc.pc }
  else
    { acc with stages := recSetI acc.stages index none }

/-- The whole per-instruction loop, starting from the scratch copies of
the current snapshot. -/
def stepLoop (s : SimulationState) (nextCycle : Nat) : LoopAcc :=
  (List.range s.instructions.length).foldl (stepLoopBody s nextCycle)
    { stages := [], stallCycles := s.currentStallCycles,
      registers := s.registers, memory := s.memory, pc := s.PC }

/-- JavaScript `Array.prototype.slice(begin)` with a possibly negative
integral begin index. -/
def jsSlice {α : Type} (l : List α) (k : Int) : List α :=
  l.drop (if k < 0 then ((l.length : Int) + k).toNat else k.toNat)

/-- The stage value the branch-redirect path computes for the
instruction at position `index` of the truncated window: the stage is
relative to the new window position, while the preceding stalls are
looked up at the original position `index + newPC`. -/
def redirectEntry (s : SimulationState) (nextCycle : Nat) (newPC : Int)
    (index : Nat) : Option Int :=
  let stageIndex : Int :=
    (nextCycle : Int) - index - 1 - calculatePrecedingStalls s.stalls (index + newPC)
  if 0 ≤ stageIndex ∧ stageIndex < (s.stageCount : Int) then some stageIndex else none

/-- The stage record rebuilt by the branch-redirect path: the truncated
window is re-keyed by `index + newPC` and each entry is recomputed by
`redirectEntry`. -/
def redirectStages (s : SimulationState) (nextCycle : Nat) (newPC : Int)
    (len : Nat) : List (Int × Option Int) :=
  (List.range len).foldl (fun st (index : Nat) =>
    recSetI st ((index : Int) + newPC) (redirectEntry s nextCycle newPC index)) []

/-- The pure per-cycle transition `calculateNextState`: identity when not
running or finished; a stall tick decrements the pending counter and
advances the cycle with everything else frozen; otherwise the instruction
loop runs, completion is decided, and a changed program counter (when not
finishing) truncates the instruction window. -/
def calculateNextState (s : SimulationState) : SimulationState :=
  if s.isRunning = false ∨ s.isFinished = true then s
  else
    let nextCycle := s.currentCycle + 1
    if s.currentStallCycles > 0 then
      { s with currentCycle := nextCycle,
               currentStallCycles := s.currentStallCycles - 1 }
    else
      let acc := stepLoop s nextCycle
      let completionCycle := completionCycleOf s
      let isFinished : Bool := decide (nextCycle > completionCycle)
      let isRunning : Bool := !isFinished
      if isFinished = false ∧ acc.pc ≠ s.PC then
        let newInstructions := jsSlice s.instructions acc.pc
        { s with instructions := newInstructions,
                 currentCycle := nextCycle,
                 instructionStages := redirectStages s nextCycle acc.pc newInstructions.length,
                 isRunning := isRunning, isFinished := isFinished,
                 currentStallCycles := acc.stallCycles,
                 registers := acc.registers, memory := acc.memory, PC := acc.pc }
      else
        { s with currentCycle := if isFinished then completionCycle else nextCycle,
                 instructionStages := acc.stages,
                 isRunning := isRunning, isFinished := isFinished,
                 currentStallCycles := acc.stallCycles,
                 registers := acc.registers, memory := acc.memory, PC := acc.pc }

/-- The pure part of `startSimulation` for a nonempty submission: decode
every instruction, run the hazard analyzer once, and build the fresh
snapshot at cycle 1 with zeroed registers and memory (the empty-input
branch of the source delegates to `resetSimulation` and is not modelled). -/
def startSimulation (submittedInstructions : List Instr)
    (forwardingEnabled stallsEnabled : Bool) : SimulationState :=
  let registerUsage :=
    fun k => parseInstruction ((submittedInstructions.getD k emptyInstr).word)
  let tables := detectHazards submittedInstructions registerUsage
    forwardingEnabled stallsEnabled
  let totalStallCycles := (tables.stalls.map Prod.snd).sum
  let calculatedMaxCycles :=
    submittedInstructions.length + DEFAULT_STAGE_COUNT - 1 + totalStallCycles
  let initialStages := (List.range submittedInstructions.length).foldl
    (fun st index =>
      let stageIndex : Int := 1 - (index : Int) - 1
      recSetI st index
        (if 0 ≤ stageIndex ∧ stageIndex < (DEFAULT_STAGE_COUNT : Int) then
          some stageIndex
        else none)) []
  { instructions := submittedInstructions,
    currentCycle := 1,
    maxCycles := calculatedMaxCycles,
    isRunning := true,
    stageCount := DEFAULT_STAGE_COUNT,
    instructionStages := initialStages,
    isFinished := false,
    registerUsage := registerUsage,
    hazards := tables.hazards,
    forwardings := tables.forwardings,
    stalls := tables.stalls,
    currentStallCycles := 0,
    forwardingEnabled := forwardingEnabled,
    stallsEnabled := stallsEnabled,
    registers := fun _ => 0,
    memory := fun _ => 0,
    PC := 0 }

/-! Generic record lemmas. -/

/-- The instruction `addi $t1, $zero, 5` (encoding `0x20090005`) with the
decoder text the spec's end-to-end example uses. -/
def addiInstr : Instr := { word := 0x20090005, op := "addi", operands := ["$t1", "$zero", "5"] }

/-- Apply the per-cycle transition a given number of times. -/
def runSteps : Nat → SimulationState → SimulationState
  | 0, s => s
  | n + 1, s => runSteps n (calculateNextState s)

/-- The single-instruction simulation of the spec's end-to-end example,
started with both toggles on, after five ticks. -/
def c1Final : SimulationState := runSteps 5 (startSimulation [addiInstr] true true)

/-- A mid-run snapshot with a pending global stall of 2. -/
def c5State : SimulationState :=
  { instructions := [addiInstr, addiInstr],
    currentCycle := 3, maxCycles := 8, isRunning := true, stageCount := 5,
    instructionStages := [(0, some 1), (1, some 0)],
    isFinished := false,
    registerUsage := fun k => parseInstruction (([addiInstr, addiInstr].getD k emptyInstr).word),
    hazards := (initTables 2).hazards,
    forwardings := (initTables 2).forwardings,
    stalls := [(0, 0), (1, 2)],
    currentStallCycles := 2, forwardingEnabled := false, stallsEnabled := true,
    registers := fun _ => 0, memory := fun _ => 0, PC := 0 }

/-- Out-of-bounds fixture: `lw $t1, 40($t0)` with all registers zero
addresses word 40 of a 32-word memory. -/
def lwOOB : Instr := { word := 0x8D090028, op := "lw", operands := ["$t1", "40($t0)"] }

/-- Fixture `lw $t1, 0($t0)` (encoding `0x8D090000`): a load with
destination register 9. -/
def lwInstr : Instr := { word := 0x8D090000, op := "lw", operands := ["$t1", "0($t0)"] }

/-- Fixture `add $t1, $t2, $t3` (encoding `0x014B4820`): a non-load
producer with destination register 9. -/
def addT1Instr : Instr := { word := 0x014B4820, op := "add", operands := ["$t1", "$t2", "$t3"] }

/-- Fixture `add $t4, $t1, $t5` (encoding `0x012D6020`): a consumer
reading register 9 through `rs`. -/
def addT4Instr : Instr := { word := 0x012D6020, op := "add", operands := ["$t4", "$t1", "$t5"] }

/-- Three-instruction program: a load into `$t1`, an `add` into `$t1`,
then a consumer of `$t1`. -/
def hazProg : List Instr := [lwInstr, addT1Instr, addT4Instr]

/-- Decoded fields of `hazProg`, exactly as `startSimulation` builds
them. -/
def hazUsage : Nat → RegisterUsage :=
  fun k => parseInstruction ((hazProg.getD k emptyInstr).word)

/-- Two-instruction load-use program: the load into `$t1` directly
followed by its consumer. -/
def loadUseProg : List Instr := [lwInstr, addT4Instr]

/-- Decoded fields of `loadUseProg`. -/
def loadUseUsage : Nat → RegisterUsage :=
  fun k => parseInstruction ((loadUseProg.getD k emptyInstr).word)

/-- The hazard record the pair `(i, j)` stores for `i`, if any: `none`
for a skipped producer, a load matched at distance other than 1, a
forwarding-suppressed write that never happens, or no trigger at all. -/
def pairHazardWrite (usage : Nat → RegisterUsage) (fwd : Bool) (i j : Nat) :
    Option HazardInfo :=
  if (usage j).rd = 0 ∧ (usage j).isLoad = false then none
  else if pairRawMatch usage i j then
    if (usage j).isLoad then
      if i - j = 1 then
        some { type := .RAW, description := loadUseDesc usage i j,
               canForward := fwd, stallCycles := if fwd then 0 else 1 }
      else none
    else if fwd then
      some { type := .RAW, description := rawFwdDesc usage i j,
             canForward := true, stallCycles := 0 }
    else
      some { type := .RAW, description := rawNoFwdDesc usage i j,
             canForward := false, stallCycles := if i - j = 1 then 2 else 1 }
  else if (usage i).rd ≠ 0 ∧ (usage i).rd = (usage j).rd then
    some { type := .WAW, description := wawDesc usage i,
           canForward := true, stallCycles := 0 }
  else none

/-- The stall entry the pair `(i, j)` stores for `i`, if any; note that a
forwarded general RAW match and a WAW match write no stall entry. -/
def pairStallWrite (usage : Nat → RegisterUsage) (fwd : Bool) (i j : Nat) : Option Nat :=
  if (usage j).rd = 0 ∧ (usage j).isLoad = false then none
  else if pairRawMatch usage i j then
    if (usage j).isLoad then
      if i - j = 1 then some (if fwd then 0 else 1) else none
    else if fwd then none
    else some (if i - j = 1 then 2 else 1)
  else none

/-- Program with two non-load producers of `$t1` followed by a consumer:
both candidate pairs write, and the farther one wins. -/
def farProg : List Instr := [addT1Instr, addT1Instr, addT4Instr]

/-- Decoded fields of `farProg`. -/
def farUsage : Nat → RegisterUsage :=
  fun k => parseInstruction ((farProg.getD k emptyInstr).word)

/-- The branch `beq $zero, $zero, 1` (encoding `0x10000001`), always
taken. -/
def beqInstr : Instr := { word := 0x10000001, op := "beq", operands := ["$zero", "$zero", "1"] }

/-- A running snapshot whose branch sits in the execute stage on the
next tick: the branch redirects the program counter from 0 to 2. -/
def redirectState : SimulationState :=
  { instructions := [beqInstr, addiInstr, addiInstr, addiInstr],
    currentCycle := 2, maxCycles := 8, isRunning := true, stageCount := 5,
    instructionStages := [(0, some 1), (1, some 0), (2, none), (3, none)],
    isFinished := false,
    registerUsage :=
      fun k => parseInstruction (([beqInstr, addiInstr, addiInstr, addiInstr].getD k emptyInstr).word),
    hazards := (initTables 4).hazards,
    forwardings := (initTables 4).forwardings,
    stalls := (initTables 4).stalls,
    currentStallCycles := 0, forwardingEnabled := true, stallsEnabled := true,
    registers := fun _ => 0, memory := fun _ => 0, PC := 0 }

/-- An operand is name-like when every numeric re-parse the execution
unit performs on it fails (NaN): the raw dollar-stripped text, the
normalized-then-stripped text, and the base register of an
`offset(base)` operand all have no leading digits. -/
def namedOperandB (o : String) : Bool :=
  (jsParseInt (stripD o)).isNone &&
  (jsParseInt (stripD (normalizeRegister (stripD o)))).isNone &&
  (match parseOffsetBase o with
   | some p => (jsParseInt (stripD p.2)).isNone
   | none => true)

/-- Fixture for the C9 counterexample: a register file with `$t2 = 5`. -/
def regsC9 : String → Int := fun r => if r = "$t2" then 5 else 0

/-- Fixture: `add $t1, $t2, $t3` (encoding `0x014B4820`, reusing the
producer instruction of the hazard fixtures). -/
def addC9 : Instr := { word := 0x014B4820, op := "add", operands := ["$t1", "$t2", "$t3"] }

/-- A pathological forwarding edge whose register tag is the sentinel
`$rNaN` that every name-derived lookup key collapses to. -/
def badEdge : ForwardingInfo :=
  { fromIdx := 0, toIdx := 1, fromStage := .EX, toStage := .EX, register := "$rNaN" }

/-- An analyzer-style forwarding edge, tagged with a real register
name. -/
def goodEdge : ForwardingInfo :=
  { fromIdx := 0, toIdx := 1, fromStage := .EX, toStage := .EX, register := "$t1" }

theorem recLookup_recSet_self {α : Type} (l : List (Nat × α)) (k : Nat) (v : α) :
    recLookup (recSet l k v) k = some v := by
  induction l with
  | nil => simp [recSet, recLookup]
  | cons hd tl ih =>
    by_cases h : hd.1 = k
    · simp [recSet, recLookup, h]
    · simpa [recSet, recLookup, h] using ih

theorem recLookup_recSet_ne {α : Type} (l : List (Nat × α)) (k k' : Nat) (v : α)
    (h : k ≠ k') : recLookup (recSet l k v) k' = recLookup l k' := by
  induction l with
  | nil => simp [recSet, recLookup, h]
  | cons hd tl ih =>
    by_cases hh : hd.1 = k
    · simp [recSet, recLookup, hh, h]
    · simp only [recSet, recLookup, if_neg hh]
      by_cases hk : hd.1 = k'
      · simp [recLookup, hk]
      · simp [recLookup, hk, ih]

/-- Claim C7 (confirmed): every execution call returns with register
`zero` holding `0`, whatever was written during the stage body. -/
theorem zero_register_always_zero (instr : Instr) (registers : String → Int)
    (memory : Nat → Int) (PC : Int) (stage : StageName)
    (forwardings : List ForwardingInfo) :
    (executeMIPSInstruction instr registers memory PC stage forwardings).registers "$zero" = 0 := by
  simp [executeMIPSInstruction, upd]

/-! Concrete fixtures used by witnesses and counterexamples. -/

/-- Claim C5 (confirmed): a tick taken while the pending global stall
counter is positive decrements the counter, advances the cycle, and
leaves the stage record, the instruction window, the register file, the
memory, the program counter, the three analyzer tables and both feature
toggles exactly as they were. -/
theorem stall_tick_frame (s : SimulationState) (hr : s.isRunning = true)
    (hf : s.isFinished = false) (hs : 0 < s.currentStallCycles) :
    (calculateNextState s).currentCycle = s.currentCycle + 1 ∧
    (calculateNextState s).currentStallCycles = s.currentStallCycles - 1 ∧
    (calculateNextState s).instructionStages = s.instructionStages ∧
    (calculateNextState s).instructions = s.instructions ∧
    (calculateNextState s).registers = s.registers ∧
    (calculateNextState s).memory = s.memory ∧
    (calculateNextState s).PC = s.PC ∧
    (calculateNextState s).hazards = s.hazards ∧
    (calculateNextState s).forwardings = s.forwardings ∧
    (calculateNextState s).stalls = s.stalls ∧
    (calculateNextState s).registerUsage = s.registerUsage ∧
    (calculateNextState s).forwardingEnabled = s.forwardingEnabled ∧
    (calculateNextState s).stallsEnabled = s.stallsEnabled := by
  simp [calculateNextState, hr, hf, hs]

/-- Witness for C5: the concrete snapshot `c5State` satisfies the
hypotheses and the frame property. -/
theorem stall_tick_frame_witness :
    (c5State.isRunning = true ∧ c5State.isFinished = false ∧ 0 < c5State.currentStallCycles) ∧
    ((calculateNextState c5State).currentCycle = c5State.currentCycle + 1 ∧
     (calculateNextState c5State).currentStallCycles = c5State.currentStallCycles - 1 ∧
     (calculateNextState c5State).instructionStages = c5State.instructionStages ∧
     (calculateNextState c5State).instructions = c5State.instructions ∧
     (calculateNextState c5State).registers = c5State.registers ∧
     (calculateNextState c5State).memory = c5State.memory ∧
     (calculateNextState c5State).PC = c5State.PC ∧
     (calculateNextState c5State).hazards = c5State.hazards ∧
     (calculateNextState c5State).forwardings = c5State.forwardings ∧
     (calculateNextState c5State).stalls = c5State.stalls ∧
     (calculateNextState c5State).registerUsage = c5State.registerUsage ∧
     (calculateNextState c5State).forwardingEnabled = c5State.forwardingEnabled ∧
     (calculateNextState c5State).stallsEnabled = c5State.stallsEnabled) :=
  ⟨⟨rfl, rfl, by decide⟩, stall_tick_frame c5State rfl rfl (by decide)⟩

/-- Claim C1 (amended): a non-stall tick sets the finished flag exactly
when the next cycle number exceeds `completionCycle` and sets running to
its negation; but when it finishes it stores `completionCycle` itself as
the current cycle, so the finished state satisfies
`cycle = completionCycle`, not `cycle > completionCycle`. -/
theorem step_finishes_at_completion (s : SimulationState) (hr : s.isRunning = true)
    (hf : s.isFinished = false) (hsc : s.currentStallCycles = 0) :
    (calculateNextState s).isFinished = decide (s.currentCycle + 1 > completionCycleOf s) ∧
    (calculateNextState s).isRunning = !decide (s.currentCycle + 1 > completionCycleOf s) ∧
    ((calculateNextState s).isFinished = true →
      (calculateNextState s).currentCycle = completionCycleOf s) := by
  have hcond : ¬ (s.isRunning = false ∨ s.isFinished = true) := by simp [hr, hf]
  have hst : ¬ (s.currentStallCycles > 0) := by omega
  unfold calculateNextState
  rw [if_neg hcond, if_neg hst]
  by_cases hb : (decide (s.currentCycle + 1 > completionCycleOf s) = false ∧
      (stepLoop s (s.currentCycle + 1)).pc ≠ s.PC)
  · rw [if_pos hb]
    refine ⟨rfl, rfl, fun h => ?_⟩
    rw [hb.1] at h
    exact absurd h (by simp)
  · rw [if_neg hb]
    refine ⟨rfl, rfl, fun h => ?_⟩
    simp only at h
    simp only [h, if_true]

/-- Witness for the amended C1: the end-to-end single-`addi` run at cycle
5 (one tick before finishing) satisfies the hypotheses, and its next tick
finishes, stops running, and lands exactly on the completion cycle. -/
theorem step_finishes_at_completion_witness :
    ((runSteps 4 (startSimulation [addiInstr] true true)).isRunning = true ∧
     (runSteps 4 (startSimulation [addiInstr] true true)).isFinished = false ∧
     (runSteps 4 (startSimulation [addiInstr] true true)).currentStallCycles = 0) ∧
    ((calculateNextState (runSteps 4 (startSimulation [addiInstr] true true))).isFinished =
        decide ((runSteps 4 (startSimulation [addiInstr] true true)).currentCycle + 1 >
          completionCycleOf (runSteps 4 (startSimulation [addiInstr] true true))) ∧
     (calculateNextState (runSteps 4 (startSimulation [addiInstr] true true))).isRunning =
        !decide ((runSteps 4 (startSimulation [addiInstr] true true)).currentCycle + 1 >
          completionCycleOf (runSteps 4 (startSimulation [addiInstr] true true))) ∧
     ((calculateNextState (runSteps 4 (startSimulation [addiInstr] true true))).isFinished = true →
        (calculateNextState (runSteps 4 (startSimulation [addiInstr] true true))).currentCycle =
          completionCycleOf (runSteps 4 (startSimulation [addiInstr] true true)))) :=
  ⟨⟨by decide, by decide, by decide⟩,
    step_finishes_at_completion (runSteps 4 (startSimulation [addiInstr] true true))
      (by decide) (by decide) (by decide)⟩

/-- Counterexample to C1 as stated: the finished state reached by the
spec's own end-to-end example is a reachable state whose finished flag is
true while its cycle number equals (does not exceed) the completion
cycle, refuting the claimed biconditional. -/
theorem finished_state_cycle_not_above_completion :
    c1Final.isFinished = true ∧ ¬(c1Final.currentCycle > completionCycleOf c1Final) := by
  constructor
  · decide
  · decide

/-- Claim C8 (confirmed): a memory-stage load or store whose computed
address (base fetch plus offset, converted to unsigned) lies outside the
32-word memory leaves the memory untouched, writes no destination
register (only the unconditional register-zero reset runs), and yields no
program-counter redirect. -/
theorem mem_oob_soft_fail (instr : Instr) (registers : String → Int)
    (memory : Nat → Int) (PC : Int) (forwardings : List ForwardingInfo)
    (hop : instr.op ∈ (["lw", "sw", "lbu", "lhu", "ll", "sb", "sh", "sc"] : List String))
    (addr : Int)
    (haddr : memAddress instr.operands registers forwardings = some addr)
    (hoob : 32 ≤ addr) :
    (executeMIPSInstruction instr registers memory PC .MEM forwardings).memory = memory ∧
    (executeMIPSInstruction instr registers memory PC .MEM forwardings).newPC = none ∧
    (executeMIPSInstruction instr registers memory PC .MEM forwardings).registers =
      upd registers "$zero" 0 := by
  obtain ⟨⟨off, base⟩, hpb, heq⟩ := Option.map_eq_some'.mp haddr
  have hguardA : (toUint32 (getForwardedValue forwardings .MEM registers
      (jsParseInt (stripD base)) (registers (normalizeRegister base)) + off) < 0 ∨
      32 ≤ toUint32 (getForwardedValue forwardings .MEM registers
      (jsParseInt (stripD base)) (registers (normalizeRegister base)) + off)) := by
    right
    simpa [heq] using hoob
  have hguardB : (toUint32 (getForwardedValue forwardings .MEM registers
      (jsParseInt (stripD base)) (registers (normalizeRegister base)) + off) < 0 ∨
      31 < toUint32 (getForwardedValue forwardings .MEM registers
      (jsParseInt (stripD base)) (registers (normalizeRegister base)) + off)) := by
    right
    have : (32 : Int) ≤ toUint32 (getForwardedValue forwardings .MEM registers
        (jsParseInt (stripD base)) (registers (normalizeRegister base)) + off) := by
      simpa [heq] using hoob
    omega
  simp only [memAddress, operandAt] at hpb
  simp only [List.mem_cons, List.mem_singleton, List.not_mem_nil, or_false] at hop
  rcases hop with h | h | h | h | h | h | h | h <;>
    simp only [executeMIPSInstruction, execStage, execMEM, h, operandAt, hpb] <;>
    simp [hguardA, hguardB]

/-- Witness for C8: the concrete out-of-bounds load satisfies the
hypotheses and the skip conclusion. -/
theorem mem_oob_soft_fail_witness :
    (lwOOB.op ∈ (["lw", "sw", "lbu", "lhu", "ll", "sb", "sh", "sc"] : List String) ∧
     memAddress lwOOB.operands (fun _ => 0) [] = some 40 ∧ (32 : Int) ≤ 40) ∧
    ((executeMIPSInstruction lwOOB (fun _ => 0) (fun _ => 0) 0 .MEM []).memory = (fun _ => 0) ∧
     (executeMIPSInstruction lwOOB (fun _ => 0) (fun _ => 0) 0 .MEM []).newPC = none ∧
     (executeMIPSInstruction lwOOB (fun _ => 0) (fun _ => 0) 0 .MEM []).registers =
       upd (fun _ => 0) "$zero" 0) :=
  ⟨⟨by decide, by decide, by decide⟩,
    mem_oob_soft_fail lwOOB (fun _ => 0) (fun _ => 0) 0 [] (by decide) 40 (by decide) (by decide)⟩

/-- A matched RAW pair always has a producer with a nonzero destination
register: both triggers equate a nonzero source with `rd(j)`. -/
theorem pairRawMatch_rd_pos (usage : Nat → RegisterUsage) (i j : Nat)
    (h : pairRawMatch usage i j = true) : (usage j).rd ≠ 0 := by
  simp only [pairRawMatch, rsRawMatch, rtRawMatch, Bool.or_eq_true, Bool.and_eq_true,
    bne_iff_ne, beq_iff_eq] at h
  rcases h with ⟨h1, h2⟩ | ⟨_, ⟨h1, h2⟩, _⟩ <;> omega

/-- Claim C2 (confirmed): a pair with a general RAW dependence on a
non-load producer at distance 1 or 2 records, with forwarding enabled, a
zero-stall RAW record and exactly one forwarding edge into EX sourced at
EX (distance 1) or MEM (distance 2) and tagged with the producer
destination, leaving the stall table untouched; with forwarding disabled
it records 2 stall cycles (distance 1) or 1 (distance 2) and adds no
edge. -/
theorem general_raw_hazard_record (usage : Nat → RegisterUsage) (fwd : Bool) (i j : Nat)
    (t : HazardTables)
    (hraw : pairRawMatch usage i j = true)
    (hload : (usage j).isLoad = false)
    (hd : i - j = 1 ∨ i - j = 2) :
    (fwd = true →
      recLookup (processPair usage fwd i t j).hazards i =
        some { type := .RAW, description := rawFwdDesc usage i j,
               canForward := true, stallCycles := 0 } ∧
      recLookup (processPair usage fwd i t j).forwardings i =
        some ((recLookup t.forwardings i).getD [] ++
          [{ fromIdx := j, toIdx := i,
             fromStage := if i - j = 1 then .EX else .MEM, toStage := .EX,
             register := "$" ++ regNameStr (usage j).rd }]) ∧
      (processPair usage fwd i t j).stalls = t.stalls) ∧
    (fwd = false →
      recLookup (processPair usage fwd i t j).hazards i =
        some { type := .RAW, description := rawNoFwdDesc usage i j,
               canForward := false, stallCycles := if i - j = 1 then 2 else 1 } ∧
      recLookup (processPair usage fwd i t j).stalls i =
        some (if i - j = 1 then 2 else 1) ∧
      (processPair usage fwd i t j).forwardings = t.forwardings) := by
  have hrd := pairRawMatch_rd_pos usage i j hraw
  constructor
  · rintro rfl
    simp only [processPair, hraw, hload]
    rw [if_neg (by simp [hrd])]
    simp [hraw, recLookup_recSet_self]
  · rintro rfl
    simp only [processPair, hraw, hload]
    rw [if_neg (by simp [hrd])]
    simp [hraw, recLookup_recSet_self]

/-- Claim C3 (confirmed): a load-use pair (load producer, distance 1)
records, with forwarding enabled, a zero-stall RAW record, a zero stall
entry and exactly one MEM-to-EX edge tagged with the load destination;
with forwarding disabled it records exactly one stall cycle and no
edge. -/
theorem load_use_hazard_record (usage : Nat → RegisterUsage) (fwd : Bool) (i j : Nat)
    (t : HazardTables)
    (hraw : pairRawMatch usage i j = true)
    (hload : (usage j).isLoad = true)
    (hd : i - j = 1) :
    (fwd = true →
      recLookup (processPair usage fwd i t j).hazards i =
        some { type := .RAW, description := loadUseDesc usage i j,
               canForward := true, stallCycles := 0 } ∧
      recLookup (processPair usage fwd i t j).stalls i = some 0 ∧
      recLookup (processPair usage fwd i t j).forwardings i =
        some ((recLookup t.forwardings i).getD [] ++
          [{ fromIdx := j, toIdx := i, fromStage := .MEM, toStage := .EX,
             register := "$" ++ regNameStr (usage j).rd }])) ∧
    (fwd = false →
      recLookup (processPair usage fwd i t j).hazards i =
        some { type := .RAW, description := loadUseDesc usage i j,
               canForward := false, stallCycles := 1 } ∧
      recLookup (processPair usage fwd i t j).stalls i = some 1 ∧
      (processPair usage fwd i t j).forwardings = t.forwardings) := by
  constructor
  · rintro rfl
    simp only [processPair, hraw, hload, hd]
    rw [if_neg (by simp [hload])]
    simp [hraw, hd, recLookup_recSet_self]
  · rintro rfl
    simp only [processPair, hraw, hload, hd]
    rw [if_neg (by simp [hload])]
    simp [hraw, hd, recLookup_recSet_self]

/-- Claim C10 (confirmed): a RAW-matched pair whose producer is a load at
distance 2 or 3 records nothing at all: the tables come back unchanged
under either forwarding setting (the load branch only handles distance 1,
and the RAW match suppresses the WAW check). -/
theorem load_raw_far_no_record (usage : Nat → RegisterUsage) (fwd : Bool) (i j : Nat)
    (t : HazardTables)
    (hraw : pairRawMatch usage i j = true)
    (hload : (usage j).isLoad = true)
    (hd : i - j = 2 ∨ i - j = 3) :
    processPair usage fwd i t j = t := by
  have hd1 : ¬ (i - j = 1) := by omega
  simp only [processPair, hraw, hload]
  rw [if_neg (by simp [hload])]
  simp [hraw, hd1]

/-- Witness for C2: the pair (2, 1) of `hazProg` is a distance-1 general
RAW dependence on the non-load `add`, and with forwarding enabled the
scan records the zero-stall forwarded record with a single EX-to-EX
edge. -/
theorem general_raw_hazard_record_witness :
    (pairRawMatch hazUsage 2 1 = true ∧ (hazUsage 1).isLoad = false ∧
      (2 - 1 = 1 ∨ 2 - 1 = 2)) ∧
    ((true = true →
      recLookup (processPair hazUsage true 2 (initTables 3) 1).hazards 2 =
        some { type := .RAW, description := rawFwdDesc hazUsage 2 1,
               canForward := true, stallCycles := 0 } ∧
      recLookup (processPair hazUsage true 2 (initTables 3) 1).forwardings 2 =
        some ((recLookup (initTables 3).forwardings 2).getD [] ++
          [{ fromIdx := 1, toIdx := 2,
             fromStage := if 2 - 1 = 1 then .EX else .MEM, toStage := .EX,
             register := "$" ++ regNameStr (hazUsage 1).rd }]) ∧
      (processPair hazUsage true 2 (initTables 3) 1).stalls = (initTables 3).stalls) ∧
    (true = false →
      recLookup (processPair hazUsage true 2 (initTables 3) 1).hazards 2 =
        some { type := .RAW, description := rawNoFwdDesc hazUsage 2 1,
               canForward := false, stallCycles := if 2 - 1 = 1 then 2 else 1 } ∧
      recLookup (processPair hazUsage true 2 (initTables 3) 1).stalls 2 =
        some (if 2 - 1 = 1 then 2 else 1) ∧
      (processPair hazUsage true 2 (initTables 3) 1).forwardings = (initTables 3).forwardings)) :=
  ⟨⟨by decide, by decide, by decide⟩,
    general_raw_hazard_record hazUsage true 2 1 (initTables 3)
      (by decide) (by decide) (by decide)⟩

/-- Witness for C3: the pair (1, 0) of `loadUseProg` is a classic
load-use hazard, and with forwarding disabled the scan records exactly
one stall cycle and no edge. -/
theorem load_use_hazard_record_witness :
    (pairRawMatch loadUseUsage 1 0 = true ∧ (loadUseUsage 0).isLoad = true ∧ 1 - 0 = 1) ∧
    ((false = true →
      recLookup (processPair loadUseUsage false 1 (initTables 2) 0).hazards 1 =
        some { type := .RAW, description := loadUseDesc loadUseUsage 1 0,
               canForward := true, stallCycles := 0 } ∧
      recLookup (processPair loadUseUsage false 1 (initTables 2) 0).stalls 1 = some 0 ∧
      recLookup (processPair loadUseUsage false 1 (initTables 2) 0).forwardings 1 =
        some ((recLookup (initTables 2).forwardings 1).getD [] ++
          [{ fromIdx := 0, toIdx := 1, fromStage := .MEM, toStage := .EX,
             register := "$" ++ regNameStr (loadUseUsage 0).rd }])) ∧
    (false = false →
      recLookup (processPair loadUseUsage false 1 (initTables 2) 0).hazards 1 =
        some { type := .RAW, description := loadUseDesc loadUseUsage 1 0,
               canForward := false, stallCycles := 1 } ∧
      recLookup (processPair loadUseUsage false 1 (initTables 2) 0).stalls 1 = some 1 ∧
      (processPair loadUseUsage false 1 (initTables 2) 0).forwardings =
        (initTables 2).forwardings)) :=
  ⟨⟨by decide, by decide, by decide⟩,
    load_use_hazard_record loadUseUsage false 1 0 (initTables 2)
      (by decide) (by decide) (by decide)⟩

/-- Witness for C10: the pair (2, 0) of `hazProg` matches RAW on the load
at distance 2, and the scan leaves the tables untouched. -/
theorem load_raw_far_no_record_witness :
    (pairRawMatch hazUsage 2 0 = true ∧ (hazUsage 0).isLoad = true ∧
      (2 - 0 = 2 ∨ 2 - 0 = 3)) ∧
    processPair hazUsage true 2 (initTables 3) 0 = initTables 3 :=
  ⟨⟨by decide, by decide, by decide⟩,
    load_raw_far_no_record hazUsage true 2 0 (initTables 3)
      (by decide) (by decide) (by decide)⟩

/-! Machinery for claim C4: what one scanned pair writes into the hazard
and stall tables, read off the branches of `processPair`. -/

/-- A pair that writes a hazard record leaves it at key `i`. -/
theorem processPair_hazards_write (usage : Nat → RegisterUsage) (fwd : Bool)
    (i j : Nat) (t : HazardTables) (r : HazardInfo)
    (h : pairHazardWrite usage fwd i j = some r) :
    recLookup (processPair usage fwd i t j).hazards i = some r := by
  unfold pairHazardWrite at h
  unfold processPair
  split_ifs at h ⊢ <;> simp_all [recLookup_recSet_self] <;>
    (rename_i hW
     have hj : (usage j).rd ≠ 0 := fun h0 => hW.1 (hW.2.trans h0)
     rw [if_neg (fun hc => hj hc.1), if_neg hj]
     simp [recLookup_recSet_self])

/-- A pair that writes no hazard record preserves the entry at key `i`. -/
theorem processPair_hazards_skip (usage : Nat → RegisterUsage) (fwd : Bool)
    (i j : Nat) (t : HazardTables)
    (h : pairHazardWrite usage fwd i j = none) :
    recLookup (processPair usage fwd i t j).hazards i = recLookup t.hazards i := by
  unfold pairHazardWrite at h
  unfold processPair
  split_ifs at h ⊢ <;> simp_all [recLookup_recSet_self] <;>
    (rename_i hW
     split
     · rfl
     · rw [if_neg fun hc => hW hc.1 hc.2])

/-- A pair that writes a stall entry leaves it at key `i`. -/
theorem processPair_stalls_write (usage : Nat → RegisterUsage) (fwd : Bool)
    (i j : Nat) (t : HazardTables) (sv : Nat)
    (h : pairStallWrite usage fwd i j = some sv) :
    recLookup (processPair usage fwd i t j).stalls i = some sv := by
  unfold pairStallWrite at h
  unfold processPair
  split_ifs at h ⊢ <;> simp_all [recLookup_recSet_self]

/-- A pair that writes no stall entry preserves the entry at key `i`. -/
theorem processPair_stalls_skip (usage : Nat → RegisterUsage) (fwd : Bool)
    (i j : Nat) (t : HazardTables)
    (h : pairStallWrite usage fwd i j = none) :
    recLookup (processPair usage fwd i t j).stalls i = recLookup t.stalls i := by
  unfold pairStallWrite at h
  unfold processPair
  split_ifs at h ⊢ <;> simp_all [recLookup_recSet_self] <;>
    (split
     · rfl
     · split <;> rfl)

/-- Pair processing writes only at key `i`: hazard entries of other
instructions survive. -/
theorem processPair_hazards_ne (usage : Nat → RegisterUsage) (fwd : Bool)
    (i j k : Nat) (t : HazardTables) (hk : k ≠ i) :
    recLookup (processPair usage fwd i t j).hazards k = recLookup t.hazards k := by
  have hne := fun (l : List (Nat × HazardInfo)) (v : HazardInfo) =>
    recLookup_recSet_ne l i k v (Ne.symm hk)
  unfold processPair
  split_ifs <;> simp [hne] <;> split_ifs <;> simp [hne]

/-- Pair processing writes only at key `i`: stall entries of other
instructions survive. -/
theorem processPair_stalls_ne (usage : Nat → RegisterUsage) (fwd : Bool)
    (i j k : Nat) (t : HazardTables) (hk : k ≠ i) :
    recLookup (processPair usage fwd i t j).stalls k = recLookup t.stalls k := by
  have hne := fun (l : List (Nat × Nat)) (v : Nat) =>
    recLookup_recSet_ne l i k v (Ne.symm hk)
  unfold processPair
  split_ifs <;> simp [hne] <;> split_ifs <;> simp [hne]

/-- A run of pairs that all write nothing leaves the hazard entry of `i`
unchanged. -/
theorem scanFold_hazards_skip (usage : Nat → RegisterUsage) (fwd : Bool) (i : Nat)
    (l : List Nat) (t : HazardTables)
    (h : ∀ j ∈ l, pairHazardWrite usage fwd i j = none) :
    recLookup ((l.foldl (processPair usage fwd i) t)).hazards i =
      recLookup t.hazards i := by
  induction l generalizing t with
  | nil => rfl
  | cons a as ih =>
    rw [List.foldl_cons, ih _ (fun j hj => h j (List.mem_cons_of_mem _ hj))]
    exact processPair_hazards_skip _ _ _ _ _ (h a (List.mem_cons_self _ _))

/-- A run of pairs that all write nothing leaves the stall entry of `i`
unchanged. -/
theorem scanFold_stalls_skip (usage : Nat → RegisterUsage) (fwd : Bool) (i : Nat)
    (l : List Nat) (t : HazardTables)
    (h : ∀ j ∈ l, pairStallWrite usage fwd i j = none) :
    recLookup ((l.foldl (processPair usage fwd i) t)).stalls i =
      recLookup t.stalls i := by
  induction l generalizing t with
  | nil => rfl
  | cons a as ih =>
    rw [List.foldl_cons, ih _ (fun j hj => h j (List.mem_cons_of_mem _ hj))]
    exact processPair_stalls_skip _ _ _ _ _ (h a (List.mem_cons_self _ _))

/-- Scanning another destination instruction never touches the entries of
`i`. -/
theorem processInstruction_preserve (usage : Nat → RegisterUsage) (fwd : Bool)
    (t : HazardTables) (i' i : Nat) (hne : i ≠ i') :
    recLookup (processInstruction usage fwd t i').hazards i = recLookup t.hazards i ∧
    recLookup (processInstruction usage fwd t i').stalls i = recLookup t.stalls i := by
  unfold processInstruction
  split
  · exact ⟨rfl, rfl⟩
  · have key : ∀ (l : List Nat) (t0 : HazardTables),
        recLookup ((l.foldl (processPair usage fwd i') t0)).hazards i =
          recLookup t0.hazards i ∧
        recLookup ((l.foldl (processPair usage fwd i') t0)).stalls i =
          recLookup t0.stalls i := by
      intro l
      induction l with
      | nil => exact fun t0 => ⟨rfl, rfl⟩
      | cons a as ih =>
        intro t0
        rw [List.foldl_cons]
        obtain ⟨e1, e2⟩ := ih (processPair usage fwd i' t0 a)
        exact ⟨e1.trans (processPair_hazards_ne usage fwd i' a i t0 hne),
               e2.trans (processPair_stalls_ne usage fwd i' a i t0 hne)⟩
    exact key _ _

/-- Folding the outer loop over indices that avoid `i` preserves the
entries of `i`. -/
theorem outerFold_preserve (usage : Nat → RegisterUsage) (fwd : Bool)
    (L : List Nat) (t : HazardTables) (i : Nat) (hL : i ∉ L) :
    recLookup ((L.foldl (processInstruction usage fwd) t)).hazards i =
      recLookup t.hazards i ∧
    recLookup ((L.foldl (processInstruction usage fwd) t)).stalls i =
      recLookup t.stalls i := by
  induction L generalizing t with
  | nil => exact ⟨rfl, rfl⟩
  | cons a as ih =>
    rw [List.foldl_cons]
    have hia : i ≠ a := fun he => hL (he ▸ List.mem_cons_self _ _)
    have has : i ∉ as := fun hm => hL (List.mem_cons_of_mem _ hm)
    obtain ⟨e1, e2⟩ := processInstruction_preserve usage fwd t a i hia
    obtain ⟨f1, f2⟩ := ih (processInstruction usage fwd t a) has
    exact ⟨f1.trans e1, f2.trans e2⟩

/-- Claim C4 (amended): the scan examines producers nearest to farthest
without stopping; a farther match that writes a record overwrites the
nearer record, so when the farthest record-writing match also writes a
stall entry, both finally stored values are its; but a matching pair that
writes nothing (a load producer at distance 2 or 3) leaves the nearer
values in place.  Formally: if the candidate list of `i` decomposes as
`l1 ++ j2 :: l2` where `(i, j2)` writes a hazard record and a stall entry
and every later (farther) candidate writes neither, those writes are what
`detectHazards` finally stores for `i`. -/
theorem hazard_scan_farthest_writer_wins (instrs : List Instr)
    (usage : Nat → RegisterUsage) (fwd : Bool) (i j2 : Nat) (l1 l2 : List Nat)
    (r : HazardInfo) (sv : Nat)
    (hi1 : 1 ≤ i) (hin : i < instrs.length)
    (hnj : ¬ (usage i).type = .J)
    (hdecomp : jCandidates i = l1 ++ j2 :: l2)
    (hw : pairHazardWrite usage fwd i j2 = some r)
    (hsw : pairStallWrite usage fwd i j2 = some sv)
    (h2 : ∀ j ∈ l2, pairHazardWrite usage fwd i j = none)
    (h2s : ∀ j ∈ l2, pairStallWrite usage fwd i j = none) :
    recLookup (detectHazards instrs usage fwd true).hazards i = some r ∧
    recLookup (detectHazards instrs usage fwd true).stalls i = some sv := by
  have hscan : ∀ t0 : HazardTables,
      recLookup (((jCandidates i).foldl (processPair usage fwd i) t0)).hazards i = some r ∧
      recLookup (((jCandidates i).foldl (processPair usage fwd i) t0)).stalls i = some sv := by
    intro t0
    rw [hdecomp, List.foldl_append, List.foldl_cons]
    constructor
    · rw [scanFold_hazards_skip usage fwd i l2 _ h2]
      exact processPair_hazards_write _ _ _ _ _ _ hw
    · rw [scanFold_stalls_skip usage fwd i l2 _ h2s]
      exact processPair_stalls_write _ _ _ _ _ _ hsw
  have hmid : ∀ t0 : HazardTables,
      recLookup (processInstruction usage fwd t0 i).hazards i = some r ∧
      recLookup (processInstruction usage fwd t0 i).stalls i = some sv := by
    intro t0
    unfold processInstruction
    rw [if_neg hnj]
    exact hscan t0
  unfold detectHazards
  rw [if_neg (by simp)]
  have e2 : (instrs.length - i) + (i - 1) = instrs.length - 1 := by omega
  have e1 : 1 + 1 * (i - 1) = i := by omega
  have e3 : instrs.length - i = (instrs.length - 1 - i) + 1 := by omega
  have hsplit : List.range' 1 (instrs.length - 1) =
      List.range' 1 (i - 1) ++ i :: List.range' (i + 1) (instrs.length - 1 - i) := by
    calc List.range' 1 (instrs.length - 1)
        = List.range' 1 ((instrs.length - i) + (i - 1)) := by rw [e2]
      _ = List.range' 1 (i - 1) ++ List.range' (1 + 1 * (i - 1)) (instrs.length - i) :=
          (List.range'_append 1 (i - 1) (instrs.length - i) 1).symm
      _ = List.range' 1 (i - 1) ++ List.range' i ((instrs.length - 1 - i) + 1) := by
          rw [e1, ← e3]
      _ = List.range' 1 (i - 1) ++ (i :: List.range' (i + 1) (instrs.length - 1 - i)) := by
          rw [List.range'_succ]
  rw [hsplit, List.foldl_append, List.foldl_cons]
  have hnotmem : i ∉ List.range' (i + 1) (instrs.length - 1 - i) := by
    intro hmem
    rw [List.mem_range'] at hmem
    omega
  obtain ⟨p1, p2⟩ := outerFold_preserve usage fwd _
    (processInstruction usage fwd
      (List.foldl (processInstruction usage fwd) (initTables instrs.length)
        (List.range' 1 (i - 1))) i) i hnotmem
  exact ⟨p1.trans (hmid _).1, p2.trans (hmid _).2⟩

/-- Counterexample to C4 as stated: in `hazProg` with forwarding
disabled, instruction 2 matches both the nearer `add` (j = 1) and the
farther load (j = 0); the farther match produces no record at all, and
the record and stall entry finally stored are exactly those of the
nearer match (the description names instruction 1), so the values stored
are not ones produced by the farthest matching producer. -/
theorem hazard_scan_nearest_record_survives :
    pairRawMatch hazUsage 2 1 = true ∧
    pairRawMatch hazUsage 2 0 = true ∧
    pairHazardWrite hazUsage false 2 0 = none ∧
    recLookup (detectHazards hazProg hazUsage false true).hazards 2 =
      some { type := .RAW, description := rawNoFwdDesc hazUsage 2 1,
             canForward := false, stallCycles := 2 } ∧
    recLookup (detectHazards hazProg hazUsage false true).stalls 2 = some 2 ∧
    ¬ (∃ r : HazardInfo, pairHazardWrite hazUsage false 2 0 = some r ∧
        recLookup (detectHazards hazProg hazUsage false true).hazards 2 = some r) := by
  refine ⟨by decide, by decide, by decide, by decide, by decide, ?_⟩
  rintro ⟨r, hr, -⟩
  rw [show pairHazardWrite hazUsage false 2 0 = none from by decide] at hr
  exact Option.noConfusion hr

/-- Witness for the amended C4: in `farProg` with forwarding disabled the
farthest candidate (j = 0, distance 2) writes a one-stall record, no
farther-processed candidate writes afterwards, and that record and stall
entry are what the whole scan stores for instruction 2. -/
theorem hazard_scan_farthest_writer_wins_witness :
    (1 ≤ 2 ∧ 2 < farProg.length ∧ ¬ (farUsage 2).type = .J ∧
     jCandidates 2 = [1] ++ 0 :: [] ∧
     pairHazardWrite farUsage false 2 0 =
       some { type := .RAW, description := rawNoFwdDesc farUsage 2 0,
              canForward := false, stallCycles := 1 } ∧
     pairStallWrite farUsage false 2 0 = some 1 ∧
     (∀ j ∈ ([] : List Nat), pairHazardWrite farUsage false 2 j = none) ∧
     (∀ j ∈ ([] : List Nat), pairStallWrite farUsage false 2 j = none)) ∧
    (recLookup (detectHazards farProg farUsage false true).hazards 2 =
      some { type := .RAW, description := rawNoFwdDesc farUsage 2 0,
             canForward := false, stallCycles := 1 } ∧
     recLookup (detectHazards farProg farUsage false true).stalls 2 = some 1) :=
  ⟨⟨by decide, by decide, by decide, by decide, by decide, by decide,
    by decide, by decide⟩,
    hazard_scan_farthest_writer_wins farProg farUsage false 2 0 [1] []
      { type := .RAW, description := rawNoFwdDesc farUsage 2 0,
        canForward := false, stallCycles := 1 } 1
      (by decide) (by decide) (by decide) (by decide) (by decide) (by decide)
      (by decide) (by decide)⟩

/-! Machinery for claim C6: the shape of the rebuilt stage record. -/

/-- Lookup distributes over append when the first part misses. -/
theorem recLookupI_append_of_none {α : Type} (l1 l2 : List (Int × α)) (key : Int)
    (h : recLookupI l1 key = none) :
    recLookupI (l1 ++ l2) key = recLookupI l2 key := by
  induction l1 with
  | nil => rfl
  | cons hd tl ih =>
    by_cases hk : hd.1 = key
    · simp [recLookupI, hk] at h
    · simp only [recLookupI, hk, if_neg hk, List.cons_append] at h ⊢
      exact ih h

/-- Lookup distributes over append when the first part hits. -/
theorem recLookupI_append_of_some {α : Type} (l1 l2 : List (Int × α)) (key : Int)
    (v : α) (h : recLookupI l1 key = some v) :
    recLookupI (l1 ++ l2) key = some v := by
  induction l1 with
  | nil => simp [recLookupI] at h
  | cons hd tl ih =>
    by_cases hk : hd.1 = key
    · simp only [recLookupI, if_pos hk, List.cons_append] at h ⊢
      exact h
    · simp only [recLookupI, if_neg hk, List.cons_append] at h ⊢
      exact ih h

/-- Setting a key that is absent appends it. -/
theorem recSetI_fresh {α : Type} (st : List (Int × α)) (key : Int) (v : α)
    (h : recLookupI st key = none) : recSetI st key v = st ++ [(key, v)] := by
  induction st with
  | nil => rfl
  | cons hd tl ih =>
    by_cases hk : hd.1 = key
    · simp [recLookupI, hk] at h
    · simp only [recLookupI, if_neg hk] at h
      simp [recSetI, hk, ih h]

/-- Lookup misses a keyed-range list when the index is not in the
underlying list. -/
theorem recLookupI_map_list_none {α : Type} (f : Nat → α) (npc : Int)
    (L : List Nat) (m : Nat) (hm : m ∉ L) :
    recLookupI (L.map (fun (k : Nat) => ((k : Int) + npc, f k))) ((m : Int) + npc) = none := by
  induction L with
  | nil => rfl
  | cons a as ih =>
    have ham : a ≠ m := fun he => hm (he ▸ List.mem_cons_self _ _)
    have : ((a : Int) + npc) ≠ ((m : Int) + npc) := by
      intro he
      exact ham (by omega)
    simp only [List.map_cons, recLookupI, if_neg this]
    exact ih (fun hmem => hm (List.mem_cons_of_mem _ hmem))

/-- Lookup of position `k + npc` in the keyed range of length `len`
returns the `k`-th entry. -/
theorem recLookupI_map_range {α : Type} (f : Nat → α) (npc : Int) (len k : Nat)
    (hk : k < len) :
    recLookupI ((List.range len).map (fun (j : Nat) => ((j : Int) + npc, f j)))
      ((k : Int) + npc) = some (f k) := by
  induction len with
  | zero => omega
  | succ n ih =>
    rw [List.range_succ, List.map_append]
    by_cases h : k < n
    · exact recLookupI_append_of_some _ _ _ _ (ih h)
    · have hkn : k = n := by omega
      subst hkn
      rw [recLookupI_append_of_none _ _ _
        (recLookupI_map_list_none f npc _ k (by simp [List.mem_range]))]
      simp [recLookupI]

/-- The redirect fold is exactly the keyed range of `redirectEntry`. -/
theorem redirectStages_eq (s : SimulationState) (nc : Nat) (npc : Int) (len : Nat) :
    redirectStages s nc npc len =
      (List.range len).map (fun (k : Nat) => ((k : Int) + npc, redirectEntry s nc npc k)) := by
  unfold redirectStages
  induction len with
  | zero => rfl
  | succ n ih =>
    rw [List.range_succ, List.foldl_append, ih, List.foldl_cons, List.foldl_nil,
      List.map_append]
    rw [recSetI_fresh _ _ _
      (recLookupI_map_list_none _ npc _ n (by simp [List.mem_range]))]
    rfl

/-- Entries of the rebuilt stage record, one per remaining instruction. -/
theorem redirectStages_lookup (s : SimulationState) (nc : Nat) (npc : Int)
    (len k : Nat) (hk : k < len) :
    recLookupI (redirectStages s nc npc len) ((k : Int) + npc) =
      some (redirectEntry s nc npc k) := by
  rw [redirectStages_eq]
  exact recLookupI_map_range _ npc len k hk

/-- A slice at a nonnegative index is a drop. -/
theorem jsSlice_nonneg {α : Type} (l : List α) (k : Int) (h : 0 ≤ k) :
    jsSlice l k = l.drop k.toNat := by
  unfold jsSlice
  rw [if_neg (by omega)]

/-- Claim C6 (confirmed): when a non-stall tick computes a changed
program counter and is not finishing, the next state's instruction
sequence is the old one truncated to start at the new program counter,
the program counter is updated, and the stage entry recorded for each
remaining instruction (keyed by its original position
`k + newPC`) is recomputed from its new window position `k` with the
stall table consulted at the original position, exactly
`redirectEntry`. -/
theorem branch_redirect_truncates_and_recomputes (s : SimulationState)
    (hr : s.isRunning = true) (hf : s.isFinished = false)
    (hsc : s.currentStallCycles = 0)
    (hfin : decide (s.currentCycle + 1 > completionCycleOf s) = false)
    (hne : (stepLoop s (s.currentCycle + 1)).pc ≠ s.PC)
    (hpos : 0 ≤ (stepLoop s (s.currentCycle + 1)).pc) :
    (calculateNextState s).instructions =
      s.instructions.drop (stepLoop s (s.currentCycle + 1)).pc.toNat ∧
    (calculateNextState s).PC = (stepLoop s (s.currentCycle + 1)).pc ∧
    ∀ k, k < (calculateNextState s).instructions.length →
      recLookupI (calculateNextState s).instructionStages
          ((k : Int) + (stepLoop s (s.currentCycle + 1)).pc) =
        some (redirectEntry s (s.currentCycle + 1) (stepLoop s (s.currentCycle + 1)).pc k) := by
  have hcond : ¬ (s.isRunning = false ∨ s.isFinished = true) := by simp [hr, hf]
  have hst : ¬ (s.currentStallCycles > 0) := by omega
  unfold calculateNextState
  rw [if_neg hcond, if_neg hst]
  rw [if_pos ⟨hfin, hne⟩]
  refine ⟨jsSlice_nonneg _ _ hpos, rfl, fun k hk => ?_⟩
  simp only [jsSlice_nonneg _ _ hpos] at hk ⊢
  exact redirectStages_lookup s (s.currentCycle + 1) _ _ k hk

/-- Witness for C6: the concrete taken branch truncates the window to the
last two instructions and rebuilds their stage entries. -/
theorem branch_redirect_truncates_and_recomputes_witness :
    (redirectState.isRunning = true ∧ redirectState.isFinished = false ∧
     redirectState.currentStallCycles = 0 ∧
     decide (redirectState.currentCycle + 1 > completionCycleOf redirectState) = false ∧
     (stepLoop redirectState (redirectState.currentCycle + 1)).pc ≠ redirectState.PC ∧
     0 ≤ (stepLoop redirectState (redirectState.currentCycle + 1)).pc) ∧
    ((calculateNextState redirectState).instructions =
      redirectState.instructions.drop
        (stepLoop redirectState (redirectState.currentCycle + 1)).pc.toNat ∧
     (calculateNextState redirectState).PC =
       (stepLoop redirectState (redirectState.currentCycle + 1)).pc ∧
     ∀ k, k < (calculateNextState redirectState).instructions.length →
       recLookupI (calculateNextState redirectState).instructionStages
           ((k : Int) + (stepLoop redirectState (redirectState.currentCycle + 1)).pc) =
         some (redirectEntry redirectState (redirectState.currentCycle + 1)
           (stepLoop redirectState (redirectState.currentCycle + 1)).pc k)) :=
  ⟨⟨rfl, rfl, rfl, by decide, by decide, by decide⟩,
    branch_redirect_truncates_and_recomputes redirectState rfl rfl rfl
      (by decide) (by decide) (by decide)⟩

/-! Machinery for claim C9.  Operand texts produced by the decoder are
register names; `parseInt` on a name yields NaN, so the forwarding lookup
key is always the sentinel name `$rNaN`. -/

/-- Counterexample to C9 as stated: with the `$rNaN`-tagged edge present,
the operand fetches of the `add` match it and re-read the register file
under the sentinel name (value 0) instead of using `$t2 = 5`, so the
execution unit writes 0 rather than 5 into `$t1`: the result is not
independent of the forwarding-edge list. -/
theorem forwarding_edge_changes_result :
    (executeMIPSInstruction addC9 regsC9 (fun _ => 0) 0 .EX [badEdge]).registers "$t1" = 0 ∧
    (executeMIPSInstruction addC9 regsC9 (fun _ => 0) 0 .EX []).registers "$t1" = 5 ∧
    (executeMIPSInstruction addC9 regsC9 (fun _ => 0) 0 .EX [badEdge]).registers "$t1" ≠
      (executeMIPSInstruction addC9 regsC9 (fun _ => 0) 0 .EX []).registers "$t1" := by
  refine ⟨by decide, by decide, ?_⟩
  intro h
  rw [show (executeMIPSInstruction addC9 regsC9 (fun _ => 0) 0 .EX [badEdge]).registers "$t1" = 0
      from by decide,
    show (executeMIPSInstruction addC9 regsC9 (fun _ => 0) 0 .EX []).registers "$t1" = 5
      from by decide] at h
  exact absurd h (by decide)

set_option maxHeartbeats 2000000 in
/-- Claim C9 (amended): for instructions whose operand texts are register
names (every numeric re-parse fails, as for all decoder output) and for
every forwarding-edge list none of whose edges carries the sentinel
register `$rNaN` (true of every edge the hazard analyzer emits), the
execution unit returns exactly the same register file, memory and
program counter as with the empty edge list: every operand fetch
computes the lookup key from `parseInt` of a register name, obtains NaN,
hence the key `$rNaN`, matches no such edge, and falls back to the
default read of the committed register file. -/
theorem forwarding_edges_no_effect (instr : Instr) (registers : String → Int)
    (memory : Nat → Int) (PC : Int) (stage : StageName)
    (forwardings : List ForwardingInfo)
    (hops : ∀ o ∈ instr.operands, namedOperandB o = true)
    (hedges : ∀ e ∈ forwardings, e.register ≠ "$rNaN") :
    executeMIPSInstruction instr registers memory PC stage forwardings =
      executeMIPSInstruction instr registers memory PC stage [] := by
  have hnamed : ∀ o ∈ instr.operands, jsParseInt (stripD o) = none ∧
      jsParseInt (stripD (normalizeRegister (stripD o))) = none ∧
      (∀ (off : Int) (base : String), parseOffsetBase o = some (off, base) →
        jsParseInt (stripD base) = none) := by
    intro o ho
    have h := hops o ho
    unfold namedOperandB at h
    simp only [Bool.and_eq_true, Option.isNone_iff_eq_none] at h
    refine ⟨h.1.1, h.1.2, fun off base hpb => ?_⟩
    rw [hpb] at h
    simpa using h.2
  have hg : ∀ (st : StageName) (d : Int),
      getForwardedValue forwardings st registers none d = d := by
    intro st d
    have hfind : forwardings.find?
        (fun f => f.register == getRegName none && f.toStage == st) = none := by
      rw [List.find?_eq_none]
      intro e he
      simp only [Bool.and_eq_true, beq_iff_eq, not_and]
      intro hcontra
      exact absurd hcontra (hedges e he)
    simp only [getForwardedValue, hfind]
  have hg0 : ∀ (st : StageName) (v : Option Int) (d : Int),
      getForwardedValue [] st registers v d = d := fun _ _ _ => rfl
  have hA : ∀ k, jsParseInt (stripD (operandAt instr.operands k)) = none := by
    intro k
    unfold operandAt
    by_cases hk : k < instr.operands.length
    · rw [List.getD_eq_getElem _ _ hk]
      exact (hnamed _ (List.getElem_mem _)).1
    · rw [List.getD_eq_default _ _ (le_of_not_lt hk)]
      decide
  have hB : ∀ k, jsParseInt (stripD (operandAt (mapRegs instr.operands) k)) = none := by
    intro k
    unfold operandAt mapRegs
    by_cases hk : k < instr.operands.length
    · have hk' : k < (instr.operands.map (fun r => normalizeRegister (stripD r))).length := by
        simpa using hk
      rw [List.getD_eq_getElem _ _ hk', List.getElem_map]
      exact (hnamed _ (List.getElem_mem _)).2.1
    · rw [List.getD_eq_default]
      · decide
      · simpa using le_of_not_lt hk
  have hC : ∀ (off : Int) (base : String),
      parseOffsetBase (operandAt instr.operands 1) = some (off, base) →
      jsParseInt (stripD base) = none := by
    intro off base hpb
    unfold operandAt at hpb
    by_cases hk : 1 < instr.operands.length
    · rw [List.getD_eq_getElem _ _ hk] at hpb
      exact (hnamed _ (List.getElem_mem _)).2.2 off base hpb
    · rw [List.getD_eq_default _ _ (le_of_not_lt hk)] at hpb
      rw [show parseOffsetBase "" = none from rfl] at hpb
      exact Option.noConfusion hpb
  suffices h : execStage instr registers memory PC stage forwardings =
      execStage instr registers memory PC stage [] by
    unfold executeMIPSInstruction
    rw [h]
  cases stage
  case IF => rfl
  case ID => rfl
  case WB => rfl
  case EX =>
    show execEX instr.op instr.operands registers memory PC forwardings =
      execEX instr.op instr.operands registers memory PC []
    simp only [execEX]
    try (first
    | rfl
    | (by_cases h1 : instr.op = "add" ∨ instr.op = "addu"
       · rw [if_pos h1]
         try rw [if_pos h1]
         try (first | rfl | simp only [hA, hB, hg, hg0])
       · rw [if_neg h1]
         try rw [if_neg h1]
         try (first
         | rfl
         | (by_cases h2 : instr.op = "addi" ∨ instr.op = "addiu"
            · rw [if_pos h2]
              try rw [if_pos h2]
              try (first | rfl | simp only [hA, hB, hg, hg0])
            · rw [if_neg h2]
              try rw [if_neg h2]
              try (first
              | rfl
              | (by_cases h3 : instr.op = "and"
                 · rw [if_pos h3]
                   try rw [if_pos h3]
                   try (first | rfl | simp only [hA, hB, hg, hg0])
                 · rw [if_neg h3]
                   try rw [if_neg h3]
                   try (first
                   | rfl
                   | (by_cases h4 : instr.op = "andi"
                      · rw [if_pos h4]
                        try rw [if_pos h4]
                        try (first | rfl | simp only [hA, hB, hg, hg0])
                      · rw [if_neg h4]
                        try rw [if_neg h4]
                        try (first
                        | rfl
                        | (by_cases h5 : instr.op = "or"
                           · rw [if_pos h5]
                             try rw [if_pos h5]
                             try (first | rfl | simp only [hA, hB, hg, hg0])
                           · rw [if_neg h5]
                             try rw [if_neg h5]
                             try (first
                             | rfl
                             | (by_cases h6 : instr.op = "ori"
                                · rw [if_pos h6]
                                  try rw [if_pos h6]
                                  try (first | rfl | simp only [hA, hB, hg, hg0])
                                · rw [if_neg h6]
                                  try rw [if_neg h6]
                                  try (first
                                  | rfl
                                  | (by_cases h7 : instr.op = "slt"
                                     · rw [if_pos h7]
                                       try rw [if_pos h7]
                                       try (first | rfl | simp only [hA, hB, hg, hg0])
                                     · rw [if_neg h7]
                                       try rw [if_neg h7]
                                       try (first
                                       | rfl
                                       | (by_cases h8 : instr.op = "slti"
                                          · rw [if_pos h8]
                                            try rw [if_pos h8]
                                            try (first | rfl | simp only [hA, hB, hg, hg0])
                                          · rw [if_neg h8]
                                            try rw [if_neg h8]
                                            try (first
                                            | rfl
                                            | (by_cases h9 : instr.op = "sltiu"
                                               · rw [if_pos h9]
                                                 try rw [if_pos h9]
                                                 try (first | rfl | simp only [hA, hB, hg, hg0])
                                               · rw [if_neg h9]
                                                 try rw [if_neg h9]
                                                 try (first
                                                 | rfl
                                                 | (by_cases h10 : instr.op = "sltu"
                                                    · rw [if_pos h10]
                                                      try rw [if_pos h10]
                                                      try (first | rfl | simp only [hA, hB, hg, hg0])
                                                    · rw [if_neg h10]
                                                      try rw [if_neg h10]
                                                      try (first
                                                      | rfl
                                                      | (by_cases h11 : instr.op = "sll"
                                                         · rw [if_pos h11]
                                                           try rw [if_pos h11]
                                                           try (first | rfl | simp only [hA, hB, hg, hg0])
                                                         · rw [if_neg h11]
                                                           try rw [if_neg h11]
                                                           try (first
                                                           | rfl
                                                           | (by_cases h12 : instr.op = "srl"
                                                              · rw [if_pos h12]
                                                                try rw [if_pos h12]
                                                                try (first | rfl | simp only [hA, hB, hg, hg0])
                                                              · rw [if_neg h12]
                                                                try rw [if_neg h12]
                                                                try (first
                                                                | rfl
                                                                | (by_cases h13 : instr.op = "sub" ∨ instr.op = "subu"
                                                                   · rw [if_pos h13]
                                                                     try rw [if_pos h13]
                                                                     try (first | rfl | simp only [hA, hB, hg, hg0])
                                                                   · rw [if_neg h13]
                                                                     try rw [if_neg h13]
                                                                     try (first
                                                                     | rfl
                                                                     | (by_cases h14 : instr.op = "nor"
                                                                        · rw [if_pos h14]
                                                                          try rw [if_pos h14]
                                                                          try (first | rfl | simp only [hA, hB, hg, hg0])
                                                                        · rw [if_neg h14]
                                                                          try rw [if_neg h14]
                                                                          try (first
                                                                          | rfl
                                                                          | (by_cases h15 : instr.op = "beq"
                                                                             · rw [if_pos h15]
                                                                               try rw [if_pos h15]
                                                                               try (first | rfl | simp only [hA, hB, hg, hg0])
                                                                             · rw [if_neg h15]
                                                                               try rw [if_neg h15]
                                                                               try (first
                                                                               | rfl
                                                                               | (by_cases h16 : instr.op = "bne"
                                                                                  · rw [if_pos h16]
                                                                                    try rw [if_pos h16]
                                                                                    try (first | rfl | simp only [hA, hB, hg, hg0])
                                                                                  · rw [if_neg h16]
                                                                                    try rw [if_neg h16]
                                                                                    try (first
                                                                                    | rfl
                                                                                    | (by_cases h17 : instr.op = "j"
                                                                                       · rw [if_pos h17]
                                                                                         try rw [if_pos h17]
                                                                                         try (first | rfl | simp only [hA, hB, hg, hg0])
                                                                                       · rw [if_neg h17]
                                                                                         try rw [if_neg h17]
                                                                                         try (first
                                                                                         | rfl
                                                                                         | (by_cases h18 : instr.op = "jal"
                                                                                            · rw [if_pos h18]
                                                                                              try rw [if_pos h18]
                                                                                              try (first | rfl | simp only [hA, hB, hg, hg0])
                                                                                            · rw [if_neg h18]
                                                                                              try rw [if_neg h18]
                                                                                              try (first
                                                                                              | rfl
                                                                                              | (by_cases h19 : instr.op = "jr"
                                                                                                 · rw [if_pos h19]
                                                                                                   try rw [if_pos h19]
                                                                                                   try (first | rfl | simp only [hA, hB, hg, hg0])
                                                                                                 · rw [if_neg h19]
                                                                                                   try rw [if_neg h19]
                                                                                                   try (first
                                                                                                   | rfl
                                                                                                   | (by_cases h20 : instr.op = "lui"
                                                                                                      · rw [if_pos h20]
                                                                                                        try rw [if_pos h20]
                                                                                                        try (first | rfl | simp only [hA, hB, hg, hg0])
                                                                                                      · rw [if_neg h20]
                                                                                                        try rw [if_neg h20]
                                                                                                        try rfl
                                                                                                      ))
                                                                                                 ))
                                                                                            ))
                                                                                       ))
                                                                                  ))
                                                                             ))
                                                                        ))
                                                                   ))
                                                              ))
                                                         ))
                                                    ))
                                               ))
                                          ))
                                     ))
                                ))
                           ))
                      ))
                 ))
            ))
       ))
  case MEM =>
    show execMEM instr.op instr.operands registers memory forwardings =
      execMEM instr.op instr.operands registers memory []
    simp only [execMEM]
    by_cases m1 : instr.op = "lw" ∨ instr.op = "sw"
    · rw [if_pos m1]
      try rw [if_pos m1]
      try (first
      | rfl
      | (rcases hpb : parseOffsetBase (operandAt instr.operands 1) with - | ⟨off, base⟩
         · simp only [hpb]
         · simp only [hpb, hC off base hpb, hA, hg, hg0]))
    · rw [if_neg m1]
      try rw [if_neg m1]
      try (first
      | rfl
      | (by_cases m2 : instr.op = "lbu" ∨ instr.op = "lhu" ∨ instr.op = "ll" ∨
            instr.op = "sb" ∨ instr.op = "sh" ∨ instr.op = "sc"
         · rw [if_pos m2]
           try rw [if_pos m2]
           try (first
           | rfl
           | (rcases hpb : parseOffsetBase (operandAt instr.operands 1) with - | ⟨off, base⟩
              · simp only [hpb]
              · simp only [hpb, hC off base hpb, hA, hg, hg0]))
         · rw [if_neg m2]
           try rw [if_neg m2]
           try rfl))

/-- Witness for the amended C9: the concrete `add` has name-like
operands, the analyzer-style edge is not the sentinel, and execution with
that edge equals execution with no edges. -/
theorem forwarding_edges_no_effect_witness :
    ((∀ o ∈ addC9.operands, namedOperandB o = true) ∧
     (∀ e ∈ [goodEdge], e.register ≠ "$rNaN")) ∧
    executeMIPSInstruction addC9 regsC9 (fun _ => 0) 0 .EX [goodEdge] =
      executeMIPSInstruction addC9 regsC9 (fun _ => 0) 0 .EX [] :=
  ⟨⟨by decide, by decide⟩,
    forwarding_edges_no_effect addC9 regsC9 (fun _ => 0) 0 .EX [goodEdge]
      (by decide) (by decide)⟩

end MipsSim
